import Mathlib

/-!
Shallow embedding of the libhtp-rs HTTP parser core (request side), used to
check the natural-language specification against the code.

Byte strings are `List Nat` (each entry a byte value 0..255).  The nom
streaming/complete combinators from `src/headers.rs` are modelled by the
`PR` result type below: `ok rest val`, recoverable `err`, or `incomplete`
(more input needed).  The translation follows the source files
`src/headers.rs`, `src/request.rs`, `src/request_generic.rs`,
`src/htp_request.rs`, `src/htp_response.rs` and `src/decompressors.rs`.
Helper functions that live in repository files not present under `src/`
(`util.rs`, `parsers.rs`, `bstr.rs`, `connection_parser.rs`) are modelled
from the spec and marked as such in their doc comments.
-/

namespace LibHtp

abbrev Bytes := List Nat

/-- Result of a nom-style parser: success with remaining input, recoverable
error, or an incomplete-input signal (streaming). -/
inductive PR (α : Type) where
  | ok (rest : Bytes) (val : α)
  | err
  | incomplete
deriving DecidableEq

namespace PR

/-- Map over the value of a parse result (nom `map`). -/
def pmap {α β : Type} (r : PR α) (f : α → β) : PR β :=
  match r with
  | .ok rest v => .ok rest (f v)
  | .err => .err
  | .incomplete => .incomplete

end PR

/-- Check whether the first list is a prefix of the second. -/
def prefixOfB : Bytes → Bytes → Bool
  | [], _ => true
  | _ :: _, [] => false
  | a :: as, b :: bs => a == b && prefixOfB as bs

/-- Streaming nom `tag`: match a literal; a too-short input that agrees with
the tag so far is incomplete. -/
def ptag (t : Bytes) (i : Bytes) : PR Bytes :=
  if prefixOfB t i then .ok (i.drop t.length) t
  else if prefixOfB i t then .incomplete
  else .err

/-- Complete nom `tag` (from `bytes::complete`): match a literal or fail. -/
def ctag (t : Bytes) (i : Bytes) : PR Bytes :=
  if prefixOfB t i then .ok (i.drop t.length) t else .err

/-- Streaming nom `take_till`: take bytes until the predicate holds; if the
predicate never holds the input is incomplete. -/
def ptakeTill (p : Nat → Bool) (i : Bytes) : PR Bytes :=
  let n := i.findIdx p
  if n < i.length then .ok (i.drop n) (i.take n) else .incomplete

/-- Streaming nom `take_till1`: like `ptakeTill` but requires at least one
byte taken. -/
def ptakeTill1 (p : Nat → Bool) (i : Bytes) : PR Bytes :=
  let n := i.findIdx p
  if n = 0 then (if i.length = 0 then .incomplete else .err)
  else if n < i.length then .ok (i.drop n) (i.take n)
  else .incomplete

/-- Streaming nom `take_while`: take bytes while the predicate holds. -/
def ptakeWhile (p : Nat → Bool) (i : Bytes) : PR Bytes :=
  ptakeTill (fun b => !(p b)) i

/-- Streaming nom `take_while1`: take at least one byte while the predicate
holds. -/
def ptakeWhile1 (p : Nat → Bool) (i : Bytes) : PR Bytes :=
  let n := i.findIdx (fun b => !(p b))
  if n = 0 then (if i.length = 0 then .incomplete else .err)
  else if n < i.length then .ok (i.drop n) (i.take n)
  else .incomplete

/-- Tell whether a byte is SP or HT (nom `is_space`, used by `space0` and
`space1`). -/
def isSpHt (b : Nat) : Bool := b == 32 || b == 9

/-- Streaming nom `space0` over SP and HT. -/
def pspace0 (i : Bytes) : PR Bytes := ptakeWhile isSpHt i

/-- Streaming nom `space1` over SP and HT. -/
def pspace1 (i : Bytes) : PR Bytes := ptakeWhile1 isSpHt i

/-- Complete nom `space1` (from `character::complete`). -/
def cspace1 (i : Bytes) : PR Bytes :=
  let n := i.findIdx (fun b => !(isSpHt b))
  if n = 0 then .err else .ok (i.drop n) (i.take n)

/-- Negative lookahead (nom `not`): succeed without consuming when the inner
parser fails; `incomplete` propagates. -/
def pnot {α : Type} (p : Bytes → PR α) (i : Bytes) : PR Unit :=
  match p i with
  | .ok _ _ => .err
  | .err => .ok i ()
  | .incomplete => .incomplete

/-- Lookahead (nom `peek`): run the inner parser without consuming input. -/
def ppeek {α : Type} (p : Bytes → PR α) (i : Bytes) : PR α :=
  match p i with
  | .ok _ v => .ok i v
  | .err => .err
  | .incomplete => .incomplete

/-- Convert `incomplete` into a recoverable error (nom `complete`). -/
def pcomplete {α : Type} (p : Bytes → PR α) (i : Bytes) : PR α :=
  match p i with
  | .incomplete => .err
  | r => r

/-- Optional parser (nom `opt`); `incomplete` propagates. -/
def popt {α : Type} (p : Bytes → PR α) (i : Bytes) : PR (Option α) :=
  match p i with
  | .ok rest v => .ok rest (some v)
  | .err => .ok i none
  | .incomplete => .incomplete

/-- Ordered choice (nom `alt`): the second parser runs only when the first
fails recoverably. -/
def palt2 {α : Type} (p q : Bytes → PR α) (i : Bytes) : PR α :=
  match p i with
  | .err => q i
  | r => r

end LibHtp

namespace LibHtp

/-! Flags of the header parser (src/headers.rs, `Flags`). -/

def FOLDING : Nat := 0x0001
def FOLDING_SPECIAL_CASE : Nat := 0x0002 ||| FOLDING
def NAME_EMPTY : Nat := 0x0004
def VALUE_EMPTY : Nat := 0x0008
def NAME_NON_TOKEN_CHARS : Nat := 0x0010
def NAME_TRAILING_WHITESPACE : Nat := 0x0020
def NAME_LEADING_WHITESPACE : Nat := 0x0040
def NULL_TERMINATED : Nat := 0x0080
def MISSING_COLON : Nat := 0x0100 ||| NAME_EMPTY
def DEFORMED_EOL : Nat := 0x0200
def TERMINATOR_SPECIAL_CASE : Nat := 0x0400
def DEFORMED_SEPARATOR : Nat := 0x0800 ||| NAME_NON_TOKEN_CHARS
def FOLDING_EMPTY : Nat := 0x1000 ||| DEFORMED_EOL

/-- Test a flag bit the way `FlagOperations::is_set` does: all bits of the
flag must be present. -/
def flagIsSet (flags flag : Nat) : Bool := flags &&& flag == flag

/-- Modelled from the spec: `util::is_space` (util.rs is not under src/).
White space per §4.A trimming: SP, HT, LF, VT, FF, CR. -/
def isSpaceB (b : Nat) : Bool :=
  b == 32 || b == 9 || b == 10 || b == 11 || b == 12 || b == 13

/-- Modelled from the spec: `util::trimmed` (util.rs is not under src/),
stripping leading and trailing whitespace from a byte slice (§4.A). -/
def trimmedB (bs : Bytes) : Bytes :=
  ((bs.dropWhile isSpaceB).reverse.dropWhile isSpaceB).reverse

/-- Modelled from the spec: `util::is_token` (util.rs is not under src/).
Token characters per §4.D: printable ASCII that is not a separator, i.e.
RFC 7230 tchar. -/
def isToken (b : Nat) : Bool :=
  (48 ≤ b && b ≤ 57) || (65 ≤ b && b ≤ 90) || (97 ≤ b && b ≤ 122) ||
  b == 33 || b == 35 || b == 36 || b == 37 || b == 38 || b == 39 ||
  b == 42 || b == 43 || b == 45 || b == 46 || b == 94 || b == 95 ||
  b == 96 || b == 124 || b == 126

/-- Header name with parse flags (src/headers.rs `Name`); construction trims
the raw bytes as `Name::new` does. -/
structure HName where
  name : Bytes
  flags : Nat
deriving DecidableEq

/-- Build a header name as `Name::new` does: trim, keep flags. -/
def HName.mk' (bs : Bytes) (flags : Nat) : HName := ⟨trimmedB bs, flags⟩

/-- Header value with parse flags (src/headers.rs `Value`); construction
trims the raw bytes as `Value::new` does. -/
structure HValue where
  value : Bytes
  flags : Nat
deriving DecidableEq

/-- Build a header value as `Value::new` does: trim, keep flags. -/
def HValue.mk' (bs : Bytes) (flags : Nat) : HValue := ⟨trimmedB bs, flags⟩

/-- Parsed header: name and value (src/headers.rs `Header`). -/
structure PHeader where
  name : HName
  value : HValue
deriving DecidableEq

/-! Request-side header parser (src/headers.rs, `Side::Request`).  Each
function mirrors the corresponding `Parser` method with `self.side ==
Side::Request`; the `cm` flag mirrors `self.complete`. -/

/-- Parse one null byte, returning the NULL_TERMINATED flag
(src/headers.rs `null`). -/
def nullP (i : Bytes) : PR (Bytes × Nat) :=
  (ctag [0] i).pmap (fun t => (t, NULL_TERMINATED))

/-- Request-side `complete_eol_regular`: CRLF or LF. -/
def completeEolRegularReq (i : Bytes) : PR Bytes :=
  palt2 (ctag [13, 10]) (ctag [10]) i

/-- Request-side `complete_eol_deformed`: LF CR CR LF peeking LF or CRLF, or
LF CR peeking CRLF; flagged DEFORMED_EOL. -/
def completeEolDeformedReq (i : Bytes) : PR (Bytes × Nat) :=
  let first : Bytes → PR Bytes := fun j =>
    match ctag [10, 13, 13, 10] j with
    | .ok r e =>
        (match ppeek (palt2 (ctag [10]) (ctag [13, 10])) r with
         | .ok r2 _ => .ok r2 e
         | .err => .err
         | .incomplete => .incomplete)
    | .err => .err
    | .incomplete => .incomplete
  let second : Bytes → PR Bytes := fun j =>
    match ctag [10, 13] j with
    | .ok r e =>
        (match ppeek (ctag [13, 10]) r with
         | .ok r2 _ => .ok r2 e
         | .err => .err
         | .incomplete => .incomplete)
    | .err => .err
    | .incomplete => .incomplete
  (palt2 first second i).pmap (fun e => (e, DEFORMED_EOL))

/-- Request-side `complete_eol`: deformed first, else regular with no flags. -/
def completeEolReq (i : Bytes) : PR (Bytes × Nat) :=
  palt2 completeEolDeformedReq
    (fun j => (completeEolRegularReq j).pmap (fun e => (e, 0))) i

/-- Special-case folding LWS: a single CR not followed by CR or LF, plus
optional spaces (src/headers.rs `folding_lws_special`). -/
def foldingLwsSpecial (i : Bytes) : PR Bytes :=
  match ptag [13] i with
  | .ok r f =>
      (match pnot (palt2 (ptag [13]) (ptag [10])) r with
       | .ok r2 _ =>
           (match pspace0 r2 with
            | .ok r3 sp => .ok r3 (f ++ sp)
            | .err => .err
            | .incomplete => .incomplete)
       | .err => .err
       | .incomplete => .incomplete)
  | .err => .err
  | .incomplete => .incomplete

/-- Folding linear whitespace (src/headers.rs `folding_lws`). -/
def foldingLws (i : Bytes) : PR (Bytes × Nat) :=
  palt2 (fun j => (pspace1 j).pmap (fun f => (f, FOLDING)))
    (fun j => (foldingLwsSpecial j).pmap (fun f => (f, FOLDING_SPECIAL_CASE))) i

/-- Request-side `eol`: a complete EOL that is not followed by folding LWS. -/
def eolReq (i : Bytes) : PR (Bytes × Nat) :=
  match completeEolReq i with
  | .ok r e =>
      (match pnot foldingLws r with
       | .ok r2 _ => .ok r2 e
       | .err => .err
       | .incomplete => .incomplete)
  | .err => .err
  | .incomplete => .incomplete

/-- Request-side `null_or_eol`. -/
def nullOrEolReq (i : Bytes) : PR (Bytes × Nat) := palt2 nullP eolReq i

/-- Request-side `complete_null_or_eol`. -/
def completeNullOrEolReq (i : Bytes) : PR (Bytes × Nat) :=
  palt2 nullP completeEolReq i

/-- Request-side `folding`: a complete EOL followed by folding LWS. -/
def foldingReq (i : Bytes) : PR (Bytes × Bytes × Nat) :=
  match completeEolReq i with
  | .ok r (e, f) =>
      (match foldingLws r with
       | .ok r2 (fl, f2) => .ok r2 (e, fl, f ||| f2)
       | .err => .err
       | .incomplete => .incomplete)
  | .err => .err
  | .incomplete => .incomplete

/-- Value terminator outcome: the EOL bytes with flags, and the folding
bytes when the value folds onto the next line. -/
abbrev FoldOrTerm := (Bytes × Nat) × Option Bytes

/-- Request-side `complete_folding_or_terminator`. -/
def completeFotReq (i : Bytes) : PR FoldOrTerm :=
  palt2
    (pcomplete (fun j => (foldingReq j).pmap
      (fun (e, fl, f) => (((e, f) : Bytes × Nat), some fl))))
    (fun j => (completeNullOrEolReq j).pmap (fun e => (e, none))) i

/-- Request-side `streaming_folding_or_terminator`. -/
def streamingFotReq (i : Bytes) : PR FoldOrTerm :=
  palt2
    (fun j => (foldingReq j).pmap
      (fun (e, fl, f) => (((e, f) : Bytes × Nat), some fl)))
    (fun j => (nullOrEolReq j).pmap (fun e => (e, none))) i

/-- Request-side `folding_or_terminator`, dispatching on the parser's
complete flag. -/
def fotReq (cm : Bool) (i : Bytes) : PR FoldOrTerm :=
  if cm then completeFotReq i else streamingFotReq i

/-- Request-side `value_bytes`: take bytes until LF, strip one trailing CR,
then parse the folding-or-terminator (src/headers.rs `value_bytes`). -/
def valueBytesReq (cm : Bool) (i : Bytes) : PR (Bytes × FoldOrTerm) :=
  match ptakeTill (fun b => b == 10) i with
  | .ok remaining v =>
      let v2 := if v.getLast? = some 13 then v.dropLast else v
      let remaining2 := if v.getLast? = some 13 then i.drop v2.length else remaining
      (match fotReq cm remaining2 with
       | .ok rest result => .ok rest (v2, result)
       | .err => .err
       | .incomplete => .incomplete)
  | .err => .err
  | .incomplete => .incomplete

/-- Loop of request-side `value`, accumulating folded continuation lines;
`fuel` bounds the iteration count (any fuel at least the input length
suffices, as each iteration consumes at least one byte). -/
def valueLoopReq (cm : Bool) : Nat → Nat → Bytes → Bytes → PR HValue
  | 0, _, _, _ => .incomplete
  | fuel + 1, flags, acc, i =>
      match valueBytesReq cm i with
      | .ok rest (vb, ((_e, otherFlags), fold)) =>
          let flags2 := flags ||| otherFlags
          let acc2 := (if acc.isEmpty then acc else acc ++ [32]) ++ vb
          (match fold with
           | none => .ok rest (HValue.mk' acc2 flags2)
           | some _ => valueLoopReq cm fuel flags2 acc2 rest)
      | .err => .err
      | .incomplete => .incomplete

/-- Request-side `value`: the complete header value including folded
continuation lines (src/headers.rs `value`, `Side::Request` path). -/
def valueReq (cm : Bool) (i : Bytes) : PR HValue :=
  match valueBytesReq cm i with
  | .ok rest (vb, ((_e, flags), fold)) =>
      (match fold with
       | some _ => valueLoopReq cm (rest.length + 1) flags vb rest
       | none =>
           let flags2 := if vb.isEmpty then flags ||| VALUE_EMPTY else flags
           .ok rest (HValue.mk' vb flags2))
  | .err => .err
  | .incomplete => .incomplete

/-- Regular separator: colon plus optional spaces (src/headers.rs
`separator_regular`). -/
def separatorRegular (i : Bytes) : PR (Bytes × Bytes) :=
  match ctag [58] i with
  | .ok r c =>
      (match pspace0 r with
       | .ok r2 sp => .ok r2 (c, sp)
       | .err => .err
       | .incomplete => .incomplete)
  | .err => .err
  | .incomplete => .incomplete

/-- Request-side `separator`: only the regular separator, with no flags. -/
def separatorReq (i : Bytes) : PR Nat :=
  (separatorRegular i).pmap (fun _ => 0)

/-- Token characters with surrounding whitespace (src/headers.rs
`token_chars`). -/
def tokenChars (i : Bytes) : PR (Bytes × Bytes × Bytes) :=
  match pspace0 i with
  | .ok r lead =>
      (match ptakeWhile isToken r with
       | .ok r2 nm =>
           (match pspace0 r2 with
            | .ok r3 trail => .ok r3 (lead, nm, trail)
            | .err => .err
            | .incomplete => .incomplete)
       | .err => .err
       | .incomplete => .incomplete)
  | .err => .err
  | .incomplete => .incomplete

/-- Request-side `token_name`: a token name whose lookahead is a separator,
with whitespace flags (src/headers.rs `token_name`). -/
def tokenNameReq (i : Bytes) : PR (Bytes × Nat) :=
  match tokenChars i with
  | .ok r (lead, nm, trail) =>
      (match ppeek separatorReq r with
       | .ok r2 _ =>
           let flags :=
             if nm.isEmpty then NAME_EMPTY
             else (if lead.isEmpty then 0 else NAME_LEADING_WHITESPACE) |||
                  (if trail.isEmpty then 0 else NAME_TRAILING_WHITESPACE)
           .ok r2 (i.take (lead.length + nm.length + trail.length), flags)
       | .err => .err
       | .incomplete => .incomplete)
  | .err => .err
  | .incomplete => .incomplete

/-- Request-side `non_token_name`: take until colon, terminator or CR (then
retry allowing CR), requiring a separator lookahead (src/headers.rs
`non_token_name`). -/
def nonTokenNameReq (i : Bytes) : PR (Bytes × Nat) :=
  let withStop : (Nat → Bool) → Bytes → PR Bytes := fun stop j =>
    match ptakeTill stop j with
    | .ok r nm =>
        (match ppeek separatorReq r with
         | .ok r2 _ => .ok r2 nm
         | .err => .err
         | .incomplete => .incomplete)
    | .err => .err
    | .incomplete => .incomplete
  let raw := palt2
    (withStop (fun c => c == 58 || c == 10 || c == 13))
    (withStop (fun c => c == 58 || c == 10)) i
  raw.pmap (fun nm =>
    let flags :=
      if nm.isEmpty then NAME_NON_TOKEN_CHARS ||| NAME_EMPTY
      else NAME_NON_TOKEN_CHARS |||
        (if isSpHt (nm.headD 0) then NAME_LEADING_WHITESPACE else 0) |||
        (if isSpHt (nm.getLastD 0) then NAME_TRAILING_WHITESPACE else 0)
    (nm, flags))

/-- Request-side `name`: token name first, then non-token name, trimmed into
an `HName` (src/headers.rs `name`). -/
def nameReq (i : Bytes) : PR HName :=
  (palt2 tokenNameReq nonTokenNameReq i).pmap (fun (nm, f) => HName.mk' nm f)

/-- Request-side `header_sans_colon`: a line with no colon becomes a header
with empty name, the whole line as value and MISSING_COLON on both
(src/headers.rs `header_sans_colon`). -/
def headerSansColonReq (i : Bytes) : PR PHeader :=
  match pnot (ctag [13, 10]) i with
  | .ok _ _ =>
      (match ptakeTill1 (fun c => c == 58 || c == 10) i with
       | .ok remaining v =>
           let v2 := if v.getLast? = some 13 then v.dropLast else v
           let remaining2 :=
             if v.getLast? = some 13 then i.drop v2.length else remaining
           (match completeNullOrEolReq remaining2 with
            | .ok rest (_e, flags) =>
                .ok rest
                  ⟨HName.mk' [] (MISSING_COLON ||| flags),
                   HValue.mk' v2 (MISSING_COLON ||| flags)⟩
            | .err => .err
            | .incomplete => .incomplete)
       | .err => .err
       | .incomplete => .incomplete)
  | .err => .err
  | .incomplete => .incomplete

/-- Request-side `header_with_colon`: name, separator, value (src/headers.rs
`header_with_colon`). -/
def headerWithColonReq (cm : Bool) (i : Bytes) : PR PHeader :=
  match nameReq i with
  | .ok r nm =>
      (match separatorReq r with
       | .ok r2 sepFlag =>
           (match valueReq cm r2 with
            | .ok r3 v =>
                .ok r3 ⟨{nm with flags := nm.flags ||| sepFlag},
                        {v with flags := v.flags ||| sepFlag}⟩
            | .err => .err
            | .incomplete => .incomplete)
       | .err => .err
       | .incomplete => .incomplete)
  | .err => .err
  | .incomplete => .incomplete

/-- Request-side `header`: with colon, or the missing-colon fallback. -/
def headerReq (cm : Bool) (i : Bytes) : PR PHeader :=
  palt2 (headerWithColonReq cm) headerSansColonReq i

/-- Loop of request-side `headers`; `fuel` bounds the iteration count (any
fuel at least the input length suffices). -/
def headersLoopReq (cm : Bool) : Nat → List PHeader → Bytes →
    PR (List PHeader × Bool)
  | 0, _, _ => .incomplete
  | fuel + 1, out, i =>
      match headerReq cm i with
      | .ok rest head =>
          let out2 := out ++ [head]
          if flagIsSet head.value.flags NULL_TERMINATED then
            .ok rest (out2, true)
          else
            (match completeEolReq rest with
             | .ok rest2 _ => .ok rest2 (out2, true)
             | _ => headersLoopReq cm fuel out2 rest)
      | .incomplete => .ok i (out, false)
      | .err => .err

/-- Request-side `headers`: parse a header block, reporting whether the end
of headers (or a null terminator) was reached (src/headers.rs `headers`). -/
def headersReq (cm : Bool) (i : Bytes) : PR (List PHeader × Bool) :=
  match headerReq cm i with
  | .ok rest head =>
      if flagIsSet head.value.flags NULL_TERMINATED then
        .ok rest ([head], true)
      else
        (match completeEolReq rest with
         | .ok rest2 _ => .ok rest2 ([head], true)
         | _ => headersLoopReq cm (rest.length + 1) [head] rest)
  | .err => .err
  | .incomplete => .incomplete

end LibHtp

namespace LibHtp

/-! Connection-parser data model (src/request.rs and the legacy
transliterated src/htp_request.rs / src/htp_response.rs). -/

/-- Status values returned by parser steps (`HtpStatus` in the error
module). -/
inductive HtpSt where
  | ERROR
  | DATA
  | DATA_BUFFER
  | DATA_OTHER
  | STOP
  | DECLINED
deriving DecidableEq

/-- Log codes emitted by the embedded functions. -/
inductive LogCode where
  | REQUEST_FIELD_TOO_LONG
  | INVALID_REQUEST_CHUNK_LEN
  | INVALID_REQUEST_FIELD_FOLDING
  | REQUEST_HEADER_REPETITION
  | DUPLICATE_CONTENT_LENGTH_FIELD_IN_REQUEST
deriving DecidableEq

/-- Inbound parser states (connection_parser `State`, request direction). -/
inductive PState where
  | IDLE
  | LINE
  | PROTOCOL
  | HEADERS
  | CONNECT_CHECK
  | CONNECT_WAIT_RESPONSE
  | CONNECT_PROBE_DATA
  | BODY_DETERMINE
  | BODY_IDENTITY
  | BODY_CHUNKED_LENGTH
  | BODY_CHUNKED_DATA
  | BODY_CHUNKED_DATA_END
  | FINALIZE
  | IGNORE_DATA_AFTER_HTTP_0_9
deriving DecidableEq

/-- Outbound parser states referenced by the embedded response code. -/
inductive OutState where
  | RES_LINE
  | RES_HEADERS
  | RES_BODY_DETERMINE
  | RES_FINALIZE
deriving DecidableEq

/-- Transaction progress (`HtpRequestProgress` / `HtpResponseProgress`). -/
inductive Progress where
  | NOT_STARTED
  | LINE
  | HEADERS
  | BODY
  | TRAILER
  | COMPLETE
deriving DecidableEq

/-- Numeric rank of a progress value, mirroring the derived ordering of the
Rust enums. -/
def Progress.rank : Progress → Nat
  | .NOT_STARTED => 0
  | .LINE => 1
  | .HEADERS => 2
  | .BODY => 3
  | .TRAILER => 4
  | .COMPLETE => 5

/-- Stream states (`HtpStreamState`). -/
inductive StreamState where
  | NEW
  | OPEN
  | CLOSED
  | ERROR
  | TUNNEL
  | DATA_OTHER
  | DATA
  | STOP
deriving DecidableEq

/-- Request methods (src/request.rs `HtpMethod`). -/
inductive Method where
  | UNKNOWN
  | HEAD
  | GET
  | PUT
  | POST
  | DELETE
  | CONNECT
  | OPTIONS
  | TRACE
  | PATCH
  | PROPFIND
  | PROPPATCH
  | MKCOL
  | COPY
  | MOVE
  | LOCK
  | UNLOCK
  | VERSION_CONTROL
  | CHECKOUT
  | UNCHECKOUT
  | CHECKIN
  | UPDATE
  | LABEL
  | REPORT
  | MKWORKSPACE
  | MKACTIVITY
  | BASELINE_CONTROL
  | MERGE
  | INVALID
  | ERROR
deriving DecidableEq

/-- Observable events of the embedded request machine: log messages, body
data callbacks, and the state-glue calls into connection_parser.rs (which is
not under src/ and is therefore represented by the event it fires). -/
inductive REvent where
  | log (c : LogCode)
  | bodyData (d : Bytes)
  | requestComplete
  | requestHeadersDone
  | responseHeadersDone
  | processedHeader (h : Bytes)
deriving DecidableEq

/-- The inbound-direction slice of the connection parser state: the rollover
buffer, the pending header buffer, the cursor over the current chunk, the
configured field limit, and the transaction fields touched by the embedded
functions. -/
structure RState where
  in_buf : Bytes
  in_header : Option Bytes
  field_limit : Nat
  in_chunked_length : Int
  request_message_len : Int
  in_state : PState
  out_state : OutState
  request_progress : Progress
  response_progress : Progress
  response_status_number : Int
  request_method : Method
  in_status : StreamState
  out_status : StreamState
  out_data_other_at_tx_end : Bool
  in_pos : Nat
  in_chunk_len : Nat
  invalid_folding_flagged : Bool
  events : List REvent
deriving DecidableEq

/-- Total number of buffered partial-line bytes for the inbound direction:
the rollover buffer plus any pending header buffer. -/
def bufferedBytes (s : RState) : Nat :=
  s.in_buf.length + (match s.in_header with | some h => h.length | none => 0)

/-- Translation of `ConnectionParser::check_buffer_limit`
(src/request.rs): zero-length additions pass; otherwise the rollover buffer
plus the addition plus the pending request header buffer must not exceed
`field_limit`, else a field-too-long error is logged and the call fails
with ERROR. -/
def checkBufferLimit (s : RState) (len : Nat) : RState × Option HtpSt :=
  if len = 0 then (s, none)
  else
    let newlen := s.in_buf.length + len +
      (match s.in_header with | some h => h.length | none => 0)
    if newlen > s.field_limit then
      ({s with events := s.events ++ [.log .REQUEST_FIELD_TOO_LONG]}, some .ERROR)
    else (s, none)

/-- Translation of `ConnectionParser::handle_absent_lf` (src/request.rs):
seek to the end of the current chunk, check the buffer limit, append the
data to the rollover buffer and report DATA_BUFFER. -/
def handleAbsentLf (s : RState) (data : Bytes) : RState × Option HtpSt :=
  let s1 := {s with in_pos := s.in_chunk_len}
  match checkBufferLimit s1 data.length with
  | (s2, some e) => (s2, some e)
  | (s2, none) => ({s2 with in_buf := s2.in_buf ++ data}, some .DATA_BUFFER)

/-- Modelled from the spec: `util::take_till_lf` (util.rs is not under
src/). Line-finding states consume bytes until LF (§4.F); the parsed line
includes the LF, and an input with no LF is incomplete. Returns
(remaining, line). -/
def takeTillLf (d : Bytes) : Option (Bytes × Bytes) :=
  let n := d.findIdx (fun b => b == 10)
  if n < d.length then some (d.drop (n + 1), d.take (n + 1)) else none

/-- Modelled from the spec: `util::take_till_lf_null` (util.rs is not under
src/): take bytes preceding the first LF or NUL; none when neither byte
occurs. -/
def takeTillLfNull (d : Bytes) : Option Bytes :=
  let n := d.findIdx (fun b => b == 10 || b == 0)
  if n < d.length then some (d.take n) else none

/-- Check for an ASCII hexadecimal digit. -/
def isHexDigitB (b : Nat) : Bool :=
  (48 ≤ b && b ≤ 57) || (65 ≤ b && b ≤ 70) || (97 ≤ b && b ≤ 102)

/-- Numeric value of an ASCII hexadecimal digit. -/
def hexVal (b : Nat) : Nat :=
  if b ≤ 57 then b - 48 else if b ≤ 70 then b - 55 else b - 87

/-- Modelled from the spec: `parsers::parse_chunked_length` (parsers.rs is
not under src/). Per §4.C: skip leading linear whitespace, read at least one
hex digit, accept an optional chunk extension introduced by a semicolon up
to the CR/LF, require a CR/LF terminator (the line handed over ends at its
LF); returns the parsed length as a u64 value, or none on malformed
input. -/
def parseChunkedLength (d : Bytes) : Option Nat :=
  let t := d.dropWhile isSpHt
  let digits := t.takeWhile isHexDigitB
  let rest := t.dropWhile isHexDigitB
  if digits.isEmpty then none
  else
    let rest2 :=
      if rest.headD 0 == 59 then rest.dropWhile (fun b => !(b == 13 || b == 10))
      else rest
    if rest2 = [] || rest2 = [13, 10] || rest2 = [10] || rest2 = [13] then
      some ((digits.foldl (fun a b => a * 16 + hexVal b) 0) % (2 ^ 64))
    else none

/-- Chunk length as stored by both chunked-length handlers: the u64 parse
result reinterpreted as an i64 (`chunked_len as i64`), or -1 when parsing
fails. -/
def storedChunkedLength (d : Bytes) : Int :=
  match parseChunkedLength d with
  | some n => if n < 2 ^ 63 then (n : Int) else (n : Int) - 2 ^ 64
  | none => -1

/-- Translation of `ConnectionParser::req_body_chunked_length`
(src/request.rs lines 312-352). -/
def reqBodyChunkedLength (s : RState) (data : Bytes) : RState × Option HtpSt :=
  match takeTillLf data with
  | some (_, line) =>
      let s1 := {s with in_pos := s.in_pos + line.length}
      (match (if s1.in_buf ≠ [] then checkBufferLimit s1 line.length
              else (s1, none)) with
       | (s2, some e) => (s2, some e)
       | (s2, none) =>
           let d2 := s2.in_buf ++ line
           let s3 := {s2 with in_buf := [],
                              request_message_len :=
                                s2.request_message_len + d2.length}
           let stored := storedChunkedLength d2
           let s4 := {s3 with in_chunked_length := stored}
           if stored > 0 then ({s4 with in_state := .BODY_CHUNKED_DATA}, none)
           else if stored = 0 then
             ({s4 with in_state := .HEADERS,
                       request_progress := .TRAILER}, none)
           else
             ({s4 with events :=
                 s4.events ++ [.log .INVALID_REQUEST_CHUNK_LEN]}, some .ERROR))
  | none => handleAbsentLf s data

end LibHtp

namespace LibHtp

/-! Legacy transliterated chunked-length handler
(src/htp_request.rs `htp_connp_REQ_BODY_CHUNKED_LENGTH`). -/

/-- The connection-parser fields used by the legacy byte-loop handler:
current chunk data, read and consume offsets, stream offset, the rollover
buffer, and the transaction fields it touches. -/
structure LState where
  in_current_data : Bytes
  in_current_read_offset : Nat
  in_current_consume_offset : Nat
  in_stream_offset : Int
  in_buf : Bytes
  in_chunked_length : Int
  in_state : PState
  request_progress : Progress
  request_message_len : Int
  events : List REvent
deriving DecidableEq

/-- Modelled from the spec: `htp_connp_req_consolidate_data` (the legacy
connection_parser glue is not under src/). Per §2 the rollover buffer
captures partial lines across chunk boundaries, so the consolidated view is
the buffered bytes followed by the current-chunk bytes between the consume
and read offsets. -/
def legacyConsolidated (s : LState) : Bytes :=
  s.in_buf ++ ((s.in_current_data.drop s.in_current_consume_offset).take
    (s.in_current_read_offset - s.in_current_consume_offset))

/-- Body of the end-of-line branch of `htp_connp_REQ_BODY_CHUNKED_LENGTH`
(src/htp_request.rs lines 478-509), applied to the state advanced past the
LF byte: consolidate the line, add its length to the message length, store
the parsed chunk length (or -1), clear the buffer, and branch on the stored
length. -/
def legacyOnLf (s1 : LState) : LState × Option HtpSt :=
  let d := legacyConsolidated s1
  let s2 := {s1 with request_message_len :=
                s1.request_message_len + d.length}
  let stored := storedChunkedLength d
  let s3 := {s2 with in_chunked_length := stored, in_buf := ([] : Bytes),
                     in_current_consume_offset := s2.in_current_read_offset}
  if stored > 0 then ({s3 with in_state := .BODY_CHUNKED_DATA}, none)
  else if stored = 0 then
    ({s3 with in_state := .HEADERS,
              request_progress := .TRAILER}, none)
  else
    ({s3 with events := s3.events ++
        [.log .INVALID_REQUEST_CHUNK_LEN]}, some .ERROR)

/-- Byte loop of `htp_connp_REQ_BODY_CHUNKED_LENGTH`
(src/htp_request.rs lines 463-512): read bytes until LF, then run the
end-of-line branch; running out of input yields DATA_BUFFER. The fuel
bounds the loop (any fuel exceeding the chunk length suffices). -/
def legacyChunkedLengthLoop : Nat → LState → LState × Option HtpSt
  | 0, s => (s, some .DATA_BUFFER)
  | fuel + 1, s =>
      if h : s.in_current_read_offset < s.in_current_data.length then
        let b := s.in_current_data.get ⟨s.in_current_read_offset, h⟩
        let s1 := {s with
          in_current_read_offset := s.in_current_read_offset + 1,
          in_stream_offset := s.in_stream_offset + 1}
        if b = 10 then legacyOnLf s1
        else legacyChunkedLengthLoop fuel s1
      else (s, some .DATA_BUFFER)

/-- Translation of `htp_connp_REQ_BODY_CHUNKED_LENGTH`
(src/htp_request.rs), with enough fuel for its loop. -/
def htpConnpReqBodyChunkedLength (s : LState) : LState × Option HtpSt :=
  legacyChunkedLengthLoop (s.in_current_data.length + 1) s

/-! Request header-block state handler (src/request.rs `req_headers`). -/

/-- Modelled from the spec: `util::chomp` (util.rs is not under src/),
removing the trailing line-terminator bytes (CR/LF) from a line. -/
def chompB (d : Bytes) : Bytes :=
  (d.reverse.dropWhile (fun b => b == 10 || b == 13)).reverse

/-- Modelled from the spec: `util::is_line_terminator` for the generic
personality (util.rs is not under src/): an empty line, i.e. a lone LF or a
CRLF, ends the header block (§4.D). -/
def isLineTerminatorGeneric (d : Bytes) : Bool :=
  d == [10] || d == [13, 10]

/-- Modelled from the spec: `util::is_folding_char` (util.rs is not under
src/): a fold is a continuation line beginning with SP or HT (glossary). -/
def isFoldingChar (b : Nat) : Bool := b == 32 || b == 9

/-- Modelled from the spec: `util::is_line_folded` (util.rs is not under
src/): a line is folded when it begins with a folding character. -/
def isLineFolded (d : Bytes) : Bool :=
  match d.head? with
  | some b => isFoldingChar b
  | none => false

/-- Process the previously pending header, if any, firing the
processed-header event (the dispatch through connection_parser.rs is
represented by the event; the per-header parsing itself is embedded
separately from src/request_generic.rs). -/
def processPendingHeader (s : RState) : RState :=
  match s.in_header with
  | some h => {s with in_header := none,
                      events := s.events ++ [.processedHeader h]}
  | none => s

/-- Loop of `ConnectionParser::req_headers` (src/request.rs lines 420-495),
translated line by line; the fuel bounds the loop (any fuel exceeding the
input length suffices, as every iteration consumes at least one byte or
returns). -/
def reqHeadersLoop : Nat → RState → Bytes → RState × Option HtpSt
  | 0, s, _ => (s, some .DATA_BUFFER)
  | fuel + 1, s, rest =>
      if s.in_status = .CLOSED then
        let s1 := processPendingHeader s
        let s2 := {s1 with in_buf := [], request_progress := .TRAILER}
        ({s2 with events := s2.events ++ [.requestHeadersDone]}, none)
      else
        match takeTillLf rest with
        | some (remaining, line) =>
            let s1 := {s with in_pos := s.in_pos + line.length}
            (match (if s1.in_buf ≠ [] then checkBufferLimit s1 line.length
                    else (s1, none)) with
             | (s2, some e) => (s2, some e)
             | (s2, none) =>
                 let data := s2.in_buf ++ line
                 let s3 := {s2 with in_buf := []}
                 if isLineTerminatorGeneric data then
                   let s4 := processPendingHeader s3
                   ({s4 with events := s4.events ++ [.requestHeadersDone]},
                    none)
                 else
                   let ch := chompB data
                   if !(isLineFolded ch) then
                     let s4 := processPendingHeader s3
                     (match remaining.head? with
                      | some b =>
                          if !(isFoldingChar b) then
                            reqHeadersLoop fuel
                              {s4 with events :=
                                 s4.events ++ [.processedHeader ch]} remaining
                          else
                            reqHeadersLoop fuel
                              {s4 with in_header := some ch} remaining
                      | none =>
                          reqHeadersLoop fuel
                            {s4 with in_header := some ch} remaining)
                   else
                     (match s3.in_header with
                      | none =>
                          let s4 :=
                            if !s3.invalid_folding_flagged then
                              {s3 with invalid_folding_flagged := true,
                                       events := s3.events ++
                                         [.log .INVALID_REQUEST_FIELD_FOLDING]}
                            else s3
                          reqHeadersLoop fuel
                            {s4 with in_header := some ch} remaining
                      | some h =>
                          reqHeadersLoop fuel
                            {s3 with in_header := some (h ++ ch)} remaining))
        | none =>
            (match handleAbsentLf s rest with
             | (s1, some e) => (s1, some e)
             | (s1, none) => reqHeadersLoop fuel s1 rest)

/-- Translation of `ConnectionParser::req_headers` (src/request.rs), with
enough fuel for its loop. -/
def reqHeaders (s : RState) (data : Bytes) : RState × Option HtpSt :=
  reqHeadersLoop (data.length + 2) s data

end LibHtp

namespace LibHtp

/-! CONNECT handling (src/request.rs and the CONNECT portion of
src/htp_response.rs `htp_connp_RES_BODY_DETERMINE`). -/

/-- Modelled from the spec: `util::convert_to_method` (util.rs is not under
src/): exact case-sensitive match against the static method table of §4.C;
unknown tokens map to UNKNOWN. -/
def convertToMethod (m : Bytes) : Method :=
  if m = [71, 69, 84] then .GET
  else if m = [80, 85, 84] then .PUT
  else if m = [80, 79, 83, 84] then .POST
  else if m = [72, 69, 65, 68] then .HEAD
  else if m = [68, 69, 76, 69, 84, 69] then .DELETE
  else if m = [67, 79, 78, 78, 69, 67, 84] then .CONNECT
  else if m = [79, 80, 84, 73, 79, 78, 83] then .OPTIONS
  else if m = [84, 82, 65, 67, 69] then .TRACE
  else if m = [80, 65, 84, 67, 72] then .PATCH
  else if m = [80, 82, 79, 80, 70, 73, 78, 68] then .PROPFIND
  else if m = [80, 82, 79, 80, 80, 65, 84, 67, 72] then .PROPPATCH
  else if m = [77, 75, 67, 79, 76] then .MKCOL
  else if m = [67, 79, 80, 89] then .COPY
  else if m = [77, 79, 86, 69] then .MOVE
  else if m = [76, 79, 67, 75] then .LOCK
  else if m = [85, 78, 76, 79, 67, 75] then .UNLOCK
  else if m = [86, 69, 82, 83, 73, 79, 78, 45, 67, 79, 78, 84, 82, 79, 76] then .VERSION_CONTROL
  else if m = [67, 72, 69, 67, 75, 79, 85, 84] then .CHECKOUT
  else if m = [85, 78, 67, 72, 69, 67, 75, 79, 85, 84] then .UNCHECKOUT
  else if m = [67, 72, 69, 67, 75, 73, 78] then .CHECKIN
  else if m = [85, 80, 68, 65, 84, 69] then .UPDATE
  else if m = [76, 65, 66, 69, 76] then .LABEL
  else if m = [82, 69, 80, 79, 82, 84] then .REPORT
  else if m = [77, 75, 87, 79, 82, 75, 83, 80, 65, 67, 69] then .MKWORKSPACE
  else if m = [77, 75, 65, 67, 84, 73, 86, 73, 84, 89] then .MKACTIVITY
  else if m = [66, 65, 83, 69, 76, 73, 78, 69, 45, 67, 79, 78, 84, 82, 79, 76] then .BASELINE_CONTROL
  else if m = [77, 69, 82, 71, 69] then .MERGE
  else .UNKNOWN

/-- Translation of `ConnectionParser::req_connect_wait_response`
(src/request.rs lines 238-260): wait for the response line of the current
inbound transaction; a 2xx status moves the inbound machine to
CONNECT_PROBE_DATA, anything else to FINALIZE. -/
def reqConnectWaitResponse (s : RState) : RState × Option HtpSt :=
  if s.response_progress.rank ≤ Progress.rank .LINE then (s, some .DATA_OTHER)
  else if 200 ≤ s.response_status_number ∧ s.response_status_number ≤ 299 then
    ({s with in_state := .CONNECT_PROBE_DATA}, none)
  else ({s with in_state := .FINALIZE}, none)

/-- Translation of `ConnectionParser::req_connect_probe_data`
(src/request.rs lines 200-230): probe the tunnel data; when its leading
token is not a recognized method both directions switch to TUNNEL,
otherwise the request completes and parsing continues.  The
`take_is_space` / `take_not_is_space` helpers (util.rs, not under src/)
are modelled from the spec as splitting at the first non-space and
following space. -/
def reqConnectProbeData (s : RState) (line : Bytes) : RState × Option HtpSt :=
  match takeTillLfNull line with
  | none => handleAbsentLf s line
  | some d =>
      (match (if s.in_buf ≠ [] then checkBufferLimit s d.length
              else (s, none)) with
       | (s1, some e) => (s1, some e)
       | (s1, none) =>
           let buffered := s1.in_buf ++ d
           let afterSp := buffered.dropWhile isSpaceB
           let methodBytes := afterSp.takeWhile (fun b => !(isSpaceB b))
           if convertToMethod methodBytes = .UNKNOWN then
             ({s1 with in_status := .TUNNEL, out_status := .TUNNEL}, none)
           else
             ({s1 with events := s1.events ++ [.requestComplete]}, none))

/-- Translation of the CONNECT branch of `htp_connp_RES_BODY_DETERMINE`
(src/htp_response.rs lines 958-999): for a CONNECT transaction a 2xx status
finalizes the response side (wrapping up the transaction and firing the
response-headers state change) while leaving tunnel probing to the request
side; 407 unblocks the inbound machine; any other status unblocks it and
notes that the response stops at the end of this transaction.  The boolean
result records whether the function returned at that point (true) or fell
through to regular body determination (false). -/
def resBodyDetermineConnectPart (s : RState) : RState × Bool :=
  if s.request_method = .CONNECT then
    if 200 ≤ s.response_status_number ∧ s.response_status_number ≤ 299 then
      ({s with out_state := .RES_FINALIZE,
               events := s.events ++ [.responseHeadersDone]}, true)
    else if s.response_status_number = 407 then
      ({s with in_status := .DATA}, false)
    else
      ({s with in_status := .DATA, out_data_other_at_tx_end := true}, false)
  else (s, false)

/-! Decompression-chain restart logic (src/decompressors.rs
`InnerDecompressor`). -/

/-- Content encodings (src/decompressors.rs `HtpContentEncoding`). -/
inductive Enc where
  | NONE
  | GZIP
  | DEFLATE
  | ZLIB
  | LZMA
  | ERROR
deriving DecidableEq

/-- The restart cycle of `InnerDecompressor::restart`: gzip to deflate to
zlib to gzip, and lzma to deflate; NONE and ERROR are invalid. -/
def nextInCycle : Enc → Option Enc
  | .GZIP => some .DEFLATE
  | .DEFLATE => some .ZLIB
  | .ZLIB => some .GZIP
  | .LZMA => some .DEFLATE
  | .NONE => none
  | .ERROR => none

/-- The stage state tracked by `InnerDecompressor`: its encoding, the next
encoding to try, the passthrough flag, the restart counter, and whether the
options enable LZMA (an LZMA writer with LZMA disabled is created in
passthrough mode). -/
structure InnerDec where
  encoding : Enc
  nextEncoding : Enc
  passthrough : Bool
  restarts : Nat
  lzmaEnabled : Bool
deriving DecidableEq

/-- The passthrough flag of a fresh writer per `InnerDecompressor::writer`:
false for gzip/deflate/zlib, true for LZMA when LZMA is disabled, and no
writer for NONE or ERROR. -/
def writerPassthroughFor (e : Enc) (lzmaEnabled : Bool) : Option Bool :=
  match e with
  | .GZIP => some false
  | .DEFLATE => some false
  | .ZLIB => some false
  | .LZMA => some (!lzmaEnabled)
  | .NONE => none
  | .ERROR => none

/-- Translation of `InnerDecompressor::restart` (src/decompressors.rs lines
843-876): fewer than three restarts so far means the stage retries (the same
algorithm first, then the next one in the cycle), recreating the writer and
incrementing the counter; otherwise the restart fails. -/
def restartDec (s : InnerDec) : Option InnerDec :=
  if s.restarts < 3 then
    match (if s.restarts = 0 then some s.encoding
           else nextInCycle s.nextEncoding) with
    | none => none
    | some ne =>
        (match writerPassthroughFor ne s.lzmaEnabled with
         | none => none
         | some wp =>
             some {s with nextEncoding := ne,
                          passthrough := if wp then true else s.passthrough,
                          restarts := s.restarts + 1})
  else none

/-- Decode-error branch of `InnerDecompressor::write` (src/decompressors.rs
lines 798-819): on a decoder error the stage restarts and retries, or, when
restarts are exhausted, `try_passthrough` sets passthrough mode and forwards
the data verbatim to the next stage (modelled as a byte sink, whose write
cannot fail). The boolean result records whether decoding will be
retried. -/
def writeOnDecodeError (s : InnerDec) (data sink : Bytes) :
    InnerDec × Bytes × Bool :=
  match restartDec s with
  | some s1 => (s1, sink, true)
  | none => ({s with passthrough := true}, sink ++ data, false)

/-- Passthrough branch of `InnerDecompressor::write` (src/decompressors.rs
lines 772-778): the input is forwarded verbatim to the next stage. -/
def writePassthrough (s : InnerDec) (data sink : Bytes) : InnerDec × Bytes :=
  (s, sink ++ data)

end LibHtp

namespace LibHtp

/-! Generic request-header processing
(src/request_generic.rs `process_request_header_generic`). -/

/-- Transaction-level flag FIELD_REPEATED (`HtpFlags`, util.rs is not under
src/; the numeric value is immaterial to the control flow, only bit
distinctness matters). -/
def FIELD_REPEATED : Nat := 0x0001

/-- Lowercase an ASCII byte. -/
def lowerByte (b : Nat) : Nat := if 65 ≤ b ∧ b ≤ 90 then b + 32 else b

/-- Modelled from the spec: equality under `Bstr::cmp_nocase` (bstr.rs is
not under src/): ASCII case-insensitive comparison of whole slices
(§4.A). -/
def eqNocase (a b : Bytes) : Bool := a.map lowerByte == b.map lowerByte

/-- A header entry of the transaction header table (transaction.rs is not
under src/; the triple follows the data model of §3). -/
structure TxHeader where
  name : Bytes
  value : Bytes
  flags : Nat
deriving DecidableEq

/-- Transaction state touched by the generic request-header processing:
the insertion-ordered header table (src/table.rs `Table`, a vector of
key/value pairs), the repetition counter, and the warnings logged. -/
structure TxState where
  request_headers : List (Bytes × TxHeader)
  req_header_repetitions : Nat
  warnings : List LogCode
deriving DecidableEq

/-- First index whose stored key case-insensitively equals the given name
(src/table.rs `get_nocase_mut`). -/
def findIdxNocase (tbl : List (Bytes × TxHeader)) (key : Bytes) : Option Nat :=
  tbl.findIdx? (fun kv => eqNocase kv.1 key)

/-- Check for an ASCII decimal digit. -/
def isDigitB (b : Nat) : Bool := 48 ≤ b && b ≤ 57

/-- Modelled from the spec: `parsers::parse_content_length` (parsers.rs is
not under src/): skip leading whitespace, parse a decimal integer,
tolerate trailing junk after the digits; reject overflowing values; none
when no digits are present. -/
def parseContentLength (v : Bytes) : Option Nat :=
  let t := v.dropWhile isSpaceB
  let digits := t.takeWhile isDigitB
  if digits.isEmpty then none
  else
    let n := digits.foldl (fun a b => a * 10 + (b - 48)) 0
    if n < 2 ^ 63 then some n else none

/-- The bytes of the header name Content-Length. -/
def contentLengthName : Bytes :=
  [67, 111, 110, 116, 101, 110, 116, 45, 76, 101, 110, 103, 116, 104]

/-- Duplicate-header handling on an existing entry: Content-Length
duplicates are compared (warning on mismatch or unparseable values, no
coalescing); any other name has the new value appended after a comma and
space (src/request_generic.rs lines 47-66). -/
def mergeOrWarn (ex h : TxHeader) : TxHeader × List LogCode :=
  if eqNocase h.name contentLengthName then
    let ecl := parseContentLength ex.value
    let ncl := parseContentLength h.value
    if ecl = none ∨ ncl = none ∨ ecl ≠ ncl then
      (ex, [.DUPLICATE_CONTENT_LENGTH_FIELD_IN_REQUEST])
    else (ex, [])
  else ({ex with value := ex.value ++ [44, 32] ++ h.value}, [])

/-- Translation of `ConnectionParser::process_request_header_generic`
(src/request_generic.rs lines 23-84): a fresh name is added to the table; a
repeated name marks the existing entry FIELD_REPEATED and merges or warns,
counting repetitions past the second occurrence, except that once 64
repetitions have been counted the incoming header is silently discarded. -/
def processRequestHeaderGeneric (tx : TxState) (h : TxHeader) : TxState :=
  let reps := tx.req_header_repetitions
  match findIdxNocase tx.request_headers h.name with
  | none => {tx with request_headers := tx.request_headers ++ [(h.name, h)]}
  | some i =>
      (match tx.request_headers.get? i with
       | none => tx
       | some (key, ex) =>
           if !(flagIsSet ex.flags FIELD_REPEATED) then
             let ex1 := {ex with flags := ex.flags ||| FIELD_REPEATED}
             let merged := mergeOrWarn ex1 h
             {tx with
               request_headers := tx.request_headers.set i (key, merged.1),
               warnings := tx.warnings ++ merged.2 ++
                 [.REQUEST_HEADER_REPETITION]}
           else if reps < 64 then
             let ex1 := {ex with flags := ex.flags ||| FIELD_REPEATED}
             let merged := mergeOrWarn ex1 h
             {tx with
               request_headers := tx.request_headers.set i (key, merged.1),
               warnings := tx.warnings ++ merged.2,
               req_header_repetitions := reps + 1}
           else tx)

end LibHtp

namespace LibHtp

/-! Concrete states used to instantiate the theorems below. -/

/-- A baseline inbound-parser state: empty buffers, the default 18000-byte
field limit, and a transaction positioned in the request body. -/
def rsBase : RState :=
  { in_buf := [], in_header := none, field_limit := 18000,
    in_chunked_length := 0, request_message_len := 0,
    in_state := .BODY_CHUNKED_LENGTH, out_state := .RES_BODY_DETERMINE,
    request_progress := .BODY, response_progress := .NOT_STARTED,
    response_status_number := 0, request_method := .UNKNOWN,
    in_status := .DATA, out_status := .DATA,
    out_data_other_at_tx_end := false, in_pos := 0, in_chunk_len := 0,
    invalid_folding_flagged := false, events := [] }

/-- A header-parsing state with a small configured field limit. -/
def c5state : RState := {rsBase with field_limit := 5, in_state := .HEADERS}

/-- A CONNECT transaction whose 200 response line has been seen, with the
inbound machine suspended waiting for it. -/
def c3state : RState :=
  {rsBase with request_method := .CONNECT, response_status_number := 200,
               response_progress := .HEADERS,
               in_state := .CONNECT_WAIT_RESPONSE, in_status := .DATA_OTHER}

/-- A transaction whose header table holds a repeated header x and whose
repetition counter has reached 64. -/
def txCap : TxState :=
  { request_headers := [([120], ⟨[120], [49], FIELD_REPEATED⟩)],
    req_header_repetitions := 64, warnings := [] }

/-- An incoming header X: 2 whose name matches x case-insensitively. -/
def hdrX2 : TxHeader := ⟨[88], [50], 0⟩

/-- The method recognized by the CONNECT data probe: leading whitespace is
skipped and the token before the next whitespace is looked up. -/
def probedMethod (buf d : Bytes) : Method :=
  convertToMethod (((buf ++ d).dropWhile isSpaceB).takeWhile
    (fun b => !(isSpaceB b)))

/-- A transaction whose header table holds a single unrepeated header a: 1. -/
def txDup : TxState :=
  { request_headers := [([97], ⟨[97], [49], 0⟩)],
    req_header_repetitions := 0, warnings := [] }

/-- An incoming header A: 2 whose name matches a case-insensitively. -/
def hdrA2 : TxHeader := ⟨[65], [50], 0⟩

/-! Auxiliary lemmas. -/

/-- Auxiliary: findIdx over an append whose first part has no match. -/
theorem findIdx_append_of_all_false {p : Nat → Bool} (l1 l2 : Bytes)
    (h : ∀ b ∈ l1, p b = false) :
    (l1 ++ l2).findIdx p = l1.length + l2.findIdx p := by
  rw [List.findIdx_append, List.findIdx_eq_length_of_false h]
  simp [Nat.add_comm]

/-- Auxiliary: dropWhile is the identity when every element fails the
predicate. -/
theorem dropWhile_eq_self_of_all {p : Nat → Bool} (l : Bytes)
    (h : ∀ b ∈ l, p b = false) : l.dropWhile p = l := by
  cases l with
  | nil => rfl
  | cons a t =>
      have ha := h a (List.mem_cons_self a t)
      simp [List.dropWhile_cons, ha]

/-- Auxiliary: trimming is the identity on byte strings with no whitespace. -/
theorem trimmedB_eq_self {l : Bytes} (h : ∀ b ∈ l, isSpaceB b = false) :
    trimmedB l = l := by
  unfold trimmedB
  rw [dropWhile_eq_self_of_all l h,
      dropWhile_eq_self_of_all _ (by
        intro b hb
        exact h b (List.mem_reverse.mp hb)),
      List.reverse_reverse]

/-- Auxiliary: oring a flag in guarantees the flag tests as set. -/
theorem or_and_self_nat (a b : Nat) : (a ||| b) &&& b = b := by
  apply Nat.eq_of_testBit_eq
  intro i
  simp only [Nat.testBit_and, Nat.testBit_or]
  cases h : b.testBit i <;> simp [h]

/-- Auxiliary: flagIsSet holds after oring the flag in. -/
theorem flagIsSet_or_self (a b : Nat) : flagIsSet (a ||| b) b = true := by
  simp [flagIsSet, or_and_self_nat]

end LibHtp

namespace LibHtp

/-- C4: for every decompressor stage at most three restarts are attempted;
the first restart retries the same algorithm and each later one moves along
the cycle gzip to deflate to zlib to gzip (and lzma to deflate); with
restarts exhausted the decode-error path enters passthrough and forwards the
input verbatim to the next stage, as does every passthrough-mode write. -/
theorem C4_decompressor_restarts (s s' : InnerDec) (data sink : Bytes) :
    (3 ≤ s.restarts → restartDec s = none ∧
      writeOnDecodeError s data sink =
        ({s with passthrough := true}, sink ++ data, false)) ∧
    (restartDec s = some s' → s.restarts < 3 ∧ s'.restarts = s.restarts + 1 ∧
      (s.restarts = 0 → s'.nextEncoding = s.encoding) ∧
      (0 < s.restarts → nextInCycle s.nextEncoding = some s'.nextEncoding)) ∧
    (writePassthrough s data sink = (s, sink ++ data)) := by
  refine ⟨?_, ?_, rfl⟩
  · intro h3
    have hr : restartDec s = none := by
      unfold restartDec
      rw [if_neg (by omega)]
    exact ⟨hr, by simp [writeOnDecodeError, hr]⟩
  · intro hsome
    unfold restartDec at hsome
    by_cases hlt : s.restarts < 3
    · rw [if_pos hlt] at hsome
      by_cases h0 : s.restarts = 0
      · simp only [h0, if_pos] at hsome
        cases hw : writerPassthroughFor s.encoding s.lzmaEnabled with
        | none => simp only [hw] at hsome; cases hsome
        | some wp =>
            simp only [hw] at hsome
            cases hsome
            exact ⟨hlt, by simp [h0], fun _ => rfl,
              fun hpos => absurd h0 (by omega)⟩
      · rw [if_neg h0] at hsome
        cases hc : nextInCycle s.nextEncoding with
        | none => simp only [hc] at hsome; cases hsome
        | some ne =>
            simp only [hc] at hsome
            cases hw : writerPassthroughFor ne s.lzmaEnabled with
            | none => simp only [hw] at hsome; cases hsome
            | some wp =>
                simp only [hw] at hsome
                cases hsome
                exact ⟨hlt, rfl, fun h => absurd h h0, fun _ => rfl⟩
    · rw [if_neg hlt] at hsome
      cases hsome

/-- Witness for C4 at a concrete gzip stage that has exhausted its three
restarts. -/
theorem C4_decompressor_restarts_witness :
    restartDec ⟨.GZIP, .ZLIB, false, 3, false⟩ = none ∧
    writeOnDecodeError ⟨.GZIP, .ZLIB, false, 3, false⟩ [1, 2] [] =
      (⟨.GZIP, .ZLIB, true, 3, false⟩, [1, 2], false) := by
  have h := (C4_decompressor_restarts ⟨.GZIP, .ZLIB, false, 3, false⟩
    ⟨.GZIP, .ZLIB, false, 3, false⟩ [1, 2] []).1 (by decide)
  exact ⟨h.1, h.2⟩

/-- C10: when an incoming request header repeats a name whose existing entry
already carries FIELD_REPEATED and the repetition counter has reached 64,
the incoming header is silently discarded: the transaction state is left
unchanged and no warning is logged. -/
theorem C10_repetition_cap (tx : TxState) (h : TxHeader) (i : Nat)
    (key : Bytes) (ex : TxHeader)
    (hf : findIdxNocase tx.request_headers h.name = some i)
    (hg : tx.request_headers.get? i = some (key, ex))
    (hr : flagIsSet ex.flags FIELD_REPEATED = true)
    (hn : 64 ≤ tx.req_header_repetitions) :
    processRequestHeaderGeneric tx h = tx := by
  unfold processRequestHeaderGeneric
  rw [hf]
  simp only [hg, hr]
  simp [show ¬(tx.req_header_repetitions < 64) by omega]

/-- Witness for C10 at a concrete capped transaction. -/
theorem C10_repetition_cap_witness :
    findIdxNocase txCap.request_headers hdrX2.name = some 0 ∧
    txCap.request_headers.get? 0 = some ([120], ⟨[120], [49], FIELD_REPEATED⟩) ∧
    flagIsSet FIELD_REPEATED FIELD_REPEATED = true ∧
    64 ≤ txCap.req_header_repetitions ∧
    processRequestHeaderGeneric txCap hdrX2 = txCap := by
  refine ⟨by decide, by decide, by decide, by decide, ?_⟩
  exact C10_repetition_cap txCap hdrX2 0 [120] ⟨[120], [49], FIELD_REPEATED⟩
    (by decide) (by decide) (by decide) (by decide)

end LibHtp

namespace LibHtp

/-- C6 counterexample: an incoming header whose name matches an existing,
already-repeated entry is discarded once 64 repetitions are counted, so the
new value is not merged into the existing entry as the claim requires for
non-Content-Length names. -/
theorem C6_counterexample :
    processRequestHeaderGeneric txCap hdrX2 = txCap ∧
    (txCap.request_headers.get? 0).map (fun kv => kv.2.value) = some [49] ∧
    eqNocase hdrX2.name contentLengthName = false := by
  refine ⟨by decide, by decide, by decide⟩

/-- C6 (amended): when an incoming request header repeats an existing name
and the repetition cap has not been hit (the existing entry is not yet
FIELD_REPEATED, or fewer than 64 repetitions are counted): the existing
entry is marked FIELD_REPEATED; a Content-Length duplicate keeps its value
and warns exactly when a parsed value differs or fails to parse; any other
name has the new value merged after a comma and space. -/
theorem C6_duplicate_headers (tx : TxState) (h : TxHeader) (i : Nat)
    (key : Bytes) (ex : TxHeader)
    (hf : findIdxNocase tx.request_headers h.name = some i)
    (hg : tx.request_headers.get? i = some (key, ex))
    (hcap : flagIsSet ex.flags FIELD_REPEATED = false ∨
      tx.req_header_repetitions < 64) :
    ∃ ex' : TxHeader,
      (processRequestHeaderGeneric tx h).request_headers =
        tx.request_headers.set i (key, ex') ∧
      flagIsSet ex'.flags FIELD_REPEATED = true ∧
      (eqNocase h.name contentLengthName = true →
        ex'.value = ex.value ∧
        ((parseContentLength ex.value = none ∨
          parseContentLength h.value = none ∨
          parseContentLength ex.value ≠ parseContentLength h.value) ↔
         LogCode.DUPLICATE_CONTENT_LENGTH_FIELD_IN_REQUEST ∈
           ((processRequestHeaderGeneric tx h).warnings.drop
             tx.warnings.length))) ∧
      (eqNocase h.name contentLengthName = false →
        ex'.value = ex.value ++ [44, 32] ++ h.value) := by
  classical
  set ex1 : TxHeader := {ex with flags := ex.flags ||| FIELD_REPEATED} with hex1
  set mrg := mergeOrWarn ex1 h with hmrg
  have hfl : mrg.1.flags = ex.flags ||| FIELD_REPEATED := by
    rw [hmrg]
    unfold mergeOrWarn
    by_cases hn : eqNocase h.name contentLengthName = true
    · simp only [hn, if_pos]
      split <;> rfl
    · simp only [Bool.not_eq_true] at hn
      simp [hn, hex1]
  have hout : processRequestHeaderGeneric tx h =
      (if flagIsSet ex.flags FIELD_REPEATED = false then
        {tx with request_headers := tx.request_headers.set i (key, mrg.1),
                 warnings := tx.warnings ++ mrg.2 ++ [.REQUEST_HEADER_REPETITION]}
      else
        {tx with request_headers := tx.request_headers.set i (key, mrg.1),
                 warnings := tx.warnings ++ mrg.2,
                 req_header_repetitions := tx.req_header_repetitions + 1}) := by
    unfold processRequestHeaderGeneric
    rw [hf]
    simp only [hg]
    cases hrep : flagIsSet ex.flags FIELD_REPEATED
    · simp [hrep, hmrg, hex1]
    · have hlt : tx.req_header_repetitions < 64 := by
        rcases hcap with h1 | h1
        · rw [hrep] at h1; cases h1
        · exact h1
      simp [hrep, hlt, hmrg, hex1]
  refine ⟨mrg.1, ?_, ?_, ?_, ?_⟩
  · rw [hout]; split <;> rfl
  · rw [hfl]; exact flagIsSet_or_self ex.flags FIELD_REPEATED
  · intro hn
    constructor
    · rw [hmrg]
      unfold mergeOrWarn
      simp only [hn, if_pos]
      split <;> simp [hex1]
    · have hw : (processRequestHeaderGeneric tx h).warnings.drop
          tx.warnings.length =
          mrg.2 ++ (if flagIsSet ex.flags FIELD_REPEATED = false then
            [LogCode.REQUEST_HEADER_REPETITION] else []) := by
        rw [hout]
        split
        · rw [List.append_assoc, List.drop_left]
        · rw [List.drop_left]
          simp
      rw [hw, hmrg]
      unfold mergeOrWarn
      simp only [hn, if_pos]
      by_cases hm : (parseContentLength ex.value = none ∨
          parseContentLength h.value = none ∨
          parseContentLength ex.value ≠ parseContentLength h.value)
      · have hm' : (parseContentLength ex1.value = none ∨
            parseContentLength h.value = none ∨
            parseContentLength ex1.value ≠ parseContentLength h.value) := by
          rw [hex1]; exact hm
        simp [hm, hm']
      · have hm' : ¬ (parseContentLength ex1.value = none ∨
            parseContentLength h.value = none ∨
            parseContentLength ex1.value ≠ parseContentLength h.value) := by
          rw [hex1]; exact hm
        simp [hm, hm']
  · intro hn
    rw [hmrg]
    unfold mergeOrWarn
    simp [hn, hex1]

/-- Witness for C6 at a concrete transaction with one non-Content-Length
duplicate. -/
theorem C6_duplicate_headers_witness :
    (findIdxNocase txDup.request_headers hdrA2.name = some 0 ∧
     txDup.request_headers.get? 0 = some ([97], ⟨[97], [49], 0⟩) ∧
     flagIsSet (⟨[97], [49], 0⟩ : TxHeader).flags FIELD_REPEATED = false) ∧
    (∃ ex' : TxHeader,
      (processRequestHeaderGeneric txDup hdrA2).request_headers =
        txDup.request_headers.set 0 ([97], ex') ∧
      flagIsSet ex'.flags FIELD_REPEATED = true ∧
      (eqNocase hdrA2.name contentLengthName = true →
        ex'.value = (⟨[97], [49], 0⟩ : TxHeader).value ∧
        ((parseContentLength (⟨[97], [49], 0⟩ : TxHeader).value = none ∨
          parseContentLength hdrA2.value = none ∨
          parseContentLength (⟨[97], [49], 0⟩ : TxHeader).value ≠
            parseContentLength hdrA2.value) ↔
         LogCode.DUPLICATE_CONTENT_LENGTH_FIELD_IN_REQUEST ∈
           ((processRequestHeaderGeneric txDup hdrA2).warnings.drop
             txDup.warnings.length))) ∧
      (eqNocase hdrA2.name contentLengthName = false →
        ex'.value = (⟨[97], [49], 0⟩ : TxHeader).value ++ [44, 32] ++
          hdrA2.value)) :=
  ⟨⟨by decide, by decide, by decide⟩,
   C6_duplicate_headers txDup hdrA2 0 [97] ⟨[97], [49], 0⟩
     (by decide) (by decide) (Or.inl (by decide))⟩

end LibHtp

namespace LibHtp

/-- C5 counterexample: with a configured field limit of 5, feeding the
complete header line ab: cd (7 bytes with its LF) leaves 6 bytes in the
pending header buffer, exceeding the limit, while the call returns
DATA_BUFFER and logs nothing. -/
theorem C5_counterexample :
    (reqHeaders c5state [97, 98, 58, 32, 99, 100, 10]).2 =
      some HtpSt.DATA_BUFFER ∧
    bufferedBytes (reqHeaders c5state [97, 98, 58, 32, 99, 100, 10]).1 = 6 ∧
    (reqHeaders c5state [97, 98, 58, 32, 99, 100, 10]).1.field_limit = 5 ∧
    (reqHeaders c5state [97, 98, 58, 32, 99, 100, 10]).1.events = [] := by
  refine ⟨by decide, by decide, by decide, by decide⟩

/-- C5 (amended): bytes are buffered into the rollover buffer only while the
rollover buffer plus pending header buffer plus the incoming bytes stay
within field_limit; an attempt to buffer partial-line bytes beyond
field_limit logs a field-too-long error and fails with fatal ERROR.  The
pending header buffer itself is not limit-checked when a complete header
line is stored, so the buffered total can exceed field_limit. -/
theorem C5_buffer_limit (s : RState) (data : Bytes) (hd : data ≠ []) :
    (s.field_limit < bufferedBytes s + data.length →
      handleAbsentLf s data =
        ({s with in_pos := s.in_chunk_len,
                 events := s.events ++ [.log .REQUEST_FIELD_TOO_LONG]},
         some .ERROR)) ∧
    (bufferedBytes s + data.length ≤ s.field_limit →
      handleAbsentLf s data =
        ({s with in_pos := s.in_chunk_len, in_buf := s.in_buf ++ data},
         some .DATA_BUFFER) ∧
      bufferedBytes {s with in_pos := s.in_chunk_len,
                            in_buf := s.in_buf ++ data} ≤ s.field_limit) := by
  have hlen : data.length ≠ 0 := by
    intro h0
    exact hd (List.eq_nil_of_length_eq_zero h0)
  have hbb : ∀ t : RState, List.length t.in_buf + List.length data +
      (match t.in_header with | some h => List.length h | none => 0) =
      bufferedBytes t + data.length := by
    intro t
    unfold bufferedBytes
    omega
  constructor
  · intro hover
    have hcbl : checkBufferLimit {s with in_pos := s.in_chunk_len} data.length =
        ({s with in_pos := s.in_chunk_len,
                 events := s.events ++ [.log .REQUEST_FIELD_TOO_LONG]},
         some .ERROR) := by
      unfold checkBufferLimit
      rw [if_neg hlen, if_pos]
      rw [hbb {s with in_pos := s.in_chunk_len}]
      have h1 : bufferedBytes {s with in_pos := s.in_chunk_len} = bufferedBytes s := rfl
      have h2 : ({s with in_pos := s.in_chunk_len} : RState).field_limit = s.field_limit := rfl
      rw [h1, h2]
      omega
    simp only [handleAbsentLf, hcbl]
  · intro hunder
    have hcbl : checkBufferLimit {s with in_pos := s.in_chunk_len} data.length =
        ({s with in_pos := s.in_chunk_len}, none) := by
      unfold checkBufferLimit
      rw [if_neg hlen, if_neg]
      rw [hbb {s with in_pos := s.in_chunk_len}]
      have h1 : bufferedBytes {s with in_pos := s.in_chunk_len} = bufferedBytes s := rfl
      have h2 : ({s with in_pos := s.in_chunk_len} : RState).field_limit = s.field_limit := rfl
      rw [h1, h2]
      omega
    refine ⟨by simp only [handleAbsentLf, hcbl], ?_⟩
    unfold bufferedBytes at hunder ⊢
    simp only [List.length_append]
    omega

/-- Witness for C5 at a concrete state whose next buffering attempt exceeds
the limit. -/
theorem C5_buffer_limit_witness :
    ([1, 2, 3] : Bytes) ≠ [] ∧
    c5state.field_limit < bufferedBytes c5state + [1, 2, 3, 4, 5, 6].length ∧
    handleAbsentLf c5state [1, 2, 3, 4, 5, 6] =
      ({c5state with in_pos := c5state.in_chunk_len,
                     events := c5state.events ++
                       [.log .REQUEST_FIELD_TOO_LONG]}, some .ERROR) := by
  refine ⟨by decide, by decide, ?_⟩
  exact (C5_buffer_limit c5state [1, 2, 3, 4, 5, 6] (by decide)).1 (by decide)

end LibHtp

namespace LibHtp

/-- C2: with a complete chunk-length line available (and the buffer limit
not exceeded), the stored chunk length is the parsed value (or -1): a
positive stored length moves to BODY_CHUNKED_DATA, zero moves to HEADERS
with request progress TRAILER emitting no callback (events unchanged), and
a negative stored length logs an invalid-chunk-length error and fails with
fatal ERROR. -/
theorem C2_chunked_length (s : RState) (data rest line : Bytes)
    (hlf : takeTillLf data = some (rest, line))
    (hlim : s.in_buf = [] ∨ bufferedBytes s + line.length ≤ s.field_limit) :
    (0 < storedChunkedLength (s.in_buf ++ line) →
      reqBodyChunkedLength s data =
        ({s with in_pos := s.in_pos + line.length, in_buf := [],
                 request_message_len := s.request_message_len +
                   ((s.in_buf ++ line).length : Int),
                 in_chunked_length := storedChunkedLength (s.in_buf ++ line),
                 in_state := .BODY_CHUNKED_DATA}, none)) ∧
    (storedChunkedLength (s.in_buf ++ line) = 0 →
      reqBodyChunkedLength s data =
        ({s with in_pos := s.in_pos + line.length, in_buf := [],
                 request_message_len := s.request_message_len +
                   ((s.in_buf ++ line).length : Int),
                 in_chunked_length := 0,
                 in_state := .HEADERS,
                 request_progress := .TRAILER}, none)) ∧
    (storedChunkedLength (s.in_buf ++ line) < 0 →
      reqBodyChunkedLength s data =
        ({s with in_pos := s.in_pos + line.length, in_buf := [],
                 request_message_len := s.request_message_len +
                   ((s.in_buf ++ line).length : Int),
                 in_chunked_length := storedChunkedLength (s.in_buf ++ line),
                 events := s.events ++ [.log .INVALID_REQUEST_CHUNK_LEN]},
         some .ERROR)) := by
  have hck : (if ({s with in_pos := s.in_pos + line.length} : RState).in_buf ≠ []
      then checkBufferLimit {s with in_pos := s.in_pos + line.length} line.length
      else ({s with in_pos := s.in_pos + line.length}, none)) =
      ({s with in_pos := s.in_pos + line.length}, none) := by
    rcases hlim with hb | hl
    · rw [if_neg]
      simp [hb]
    · by_cases hb : s.in_buf = []
      · rw [if_neg]
        simp [hb]
      · rw [if_pos (by simpa using hb)]
        unfold checkBufferLimit
        by_cases hl0 : line.length = 0
        · rw [if_pos hl0]
        · rw [if_neg hl0, if_neg]
          have h1 : ({s with in_pos := s.in_pos + line.length} : RState).in_buf
              = s.in_buf := rfl
          have h2 : ({s with in_pos := s.in_pos + line.length} : RState).in_header
              = s.in_header := rfl
          have h3 : ({s with in_pos := s.in_pos + line.length} : RState).field_limit
              = s.field_limit := rfl
          rw [h1, h2, h3]
          unfold bufferedBytes at hl
          omega
  have hbody : reqBodyChunkedLength s data =
      (let s3 : RState := {s with in_pos := s.in_pos + line.length,
                                  in_buf := [],
                                  request_message_len := s.request_message_len +
                                    ((s.in_buf ++ line).length : Int)}
       let stored := storedChunkedLength (s.in_buf ++ line)
       let s4 : RState := {s3 with in_chunked_length := stored}
       if stored > 0 then ({s4 with in_state := .BODY_CHUNKED_DATA}, none)
       else if stored = 0 then
         ({s4 with in_state := .HEADERS, request_progress := .TRAILER}, none)
       else ({s4 with events := s4.events ++ [.log .INVALID_REQUEST_CHUNK_LEN]},
         some .ERROR)) := by
    unfold reqBodyChunkedLength
    rw [hlf]
    simp only [hck]
  refine ⟨?_, ?_, ?_⟩
  · intro hpos
    rw [hbody]
    simp only
    rw [if_pos hpos]
  · intro hzero
    rw [hbody]
    simp only
    rw [if_neg (by omega), if_pos hzero, hzero]
  · intro hneg
    rw [hbody]
    simp only
    rw [if_neg (by omega), if_neg (by omega)]

/-- Witness for C2 at the zero-length chunk line 0 CR LF. -/
theorem C2_chunked_length_witness :
    takeTillLf [48, 13, 10] = some ([], [48, 13, 10]) ∧
    storedChunkedLength ([] ++ [48, 13, 10]) = 0 ∧
    reqBodyChunkedLength rsBase [48, 13, 10] =
      ({rsBase with in_pos := 3, in_buf := [],
                    request_message_len := 3, in_chunked_length := 0,
                    in_state := .HEADERS, request_progress := .TRAILER},
       none) := by
  refine ⟨by decide, by decide, ?_⟩
  have h := (C2_chunked_length rsBase [48, 13, 10] [] [48, 13, 10]
    (by decide) (Or.inl rfl)).2.1 (by decide)
  simpa using h

end LibHtp

namespace LibHtp

/-- C3 counterexample: after processing the 200 response line of a CONNECT
transaction, the inbound machine goes to CONNECT_PROBE_DATA (not to
TUNNEL), and when the tunnel data begins with a recognized method such as
GET, neither direction enters TUNNEL and parsing continues (the request
completes). -/
theorem C3_counterexample :
    (reqConnectWaitResponse (resBodyDetermineConnectPart c3state).1).1.in_state
      = PState.CONNECT_PROBE_DATA ∧
    ((reqConnectProbeData
        (reqConnectWaitResponse (resBodyDetermineConnectPart c3state).1).1
        [71, 69, 84, 32, 47, 32, 72, 84, 84, 80, 47, 49, 46, 49, 13, 10]).1.in_status
      ≠ StreamState.TUNNEL) ∧
    ((reqConnectProbeData
        (reqConnectWaitResponse (resBodyDetermineConnectPart c3state).1).1
        [71, 69, 84, 32, 47, 32, 72, 84, 84, 80, 47, 49, 46, 49, 13, 10]).1.out_status
      ≠ StreamState.TUNNEL) ∧
    ((reqConnectProbeData
        (reqConnectWaitResponse (resBodyDetermineConnectPart c3state).1).1
        [71, 69, 84, 32, 47, 32, 72, 84, 84, 80, 47, 49, 46, 49, 13, 10]).1.events
      = [.responseHeadersDone, .requestComplete]) := by
  refine ⟨by decide, by decide, by decide, by decide⟩

/-- C3 (amended): for a CONNECT transaction whose response line has been
processed with status in [200, 299], the response side finalizes and the
inbound machine moves to CONNECT_PROBE_DATA; the probe then puts both
directions into TUNNEL exactly when the probed data does not start with a
recognized request method, and otherwise completes the request and
continues parsing. -/
theorem C3_connect_tunnel (s : RState)
    (hm : s.request_method = .CONNECT)
    (hp : Progress.rank .LINE < s.response_progress.rank)
    (h2a : 200 ≤ s.response_status_number)
    (h2b : s.response_status_number ≤ 299) :
    reqConnectWaitResponse s = ({s with in_state := .CONNECT_PROBE_DATA}, none) ∧
    (resBodyDetermineConnectPart s).1.out_state = .RES_FINALIZE ∧
    (∀ line d, takeTillLfNull line = some d → s.in_buf = [] →
      (probedMethod s.in_buf d = .UNKNOWN →
        reqConnectProbeData s line =
          ({s with in_status := .TUNNEL, out_status := .TUNNEL}, none)) ∧
      (probedMethod s.in_buf d ≠ .UNKNOWN →
        reqConnectProbeData s line =
          ({s with events := s.events ++ [.requestComplete]}, none))) := by
  refine ⟨?_, ?_, ?_⟩
  · unfold reqConnectWaitResponse
    rw [if_neg (by omega), if_pos ⟨h2a, h2b⟩]
  · unfold resBodyDetermineConnectPart
    rw [if_pos hm, if_pos ⟨h2a, h2b⟩]
  · intro line d hlf hbuf
    constructor
    · intro hunk
      have hunk' : convertToMethod (List.takeWhile (fun b => !(isSpaceB b))
          (List.dropWhile isSpaceB d)) = Method.UNKNOWN := by
        unfold probedMethod at hunk
        rw [hbuf] at hunk
        simpa using hunk
      unfold reqConnectProbeData
      rw [hlf]
      simp [hbuf, hunk']
    · intro hkn
      have hkn' : ¬ convertToMethod (List.takeWhile (fun b => !(isSpaceB b))
          (List.dropWhile isSpaceB d)) = Method.UNKNOWN := by
        unfold probedMethod at hkn
        rw [hbuf] at hkn
        simpa using hkn
      unfold reqConnectProbeData
      rw [hlf]
      simp [hbuf, hkn']

/-- Witness for C3 at a concrete CONNECT state probing TLS-looking bytes. -/
theorem C3_connect_tunnel_witness :
    (c3state.request_method = .CONNECT ∧
     Progress.rank .LINE < c3state.response_progress.rank ∧
     200 ≤ c3state.response_status_number ∧
     c3state.response_status_number ≤ 299 ∧
     takeTillLfNull [22, 3, 1, 10] = some [22, 3, 1] ∧
     probedMethod c3state.in_buf [22, 3, 1] = .UNKNOWN) ∧
    reqConnectWaitResponse c3state =
      ({c3state with in_state := .CONNECT_PROBE_DATA}, none) ∧
    reqConnectProbeData c3state [22, 3, 1, 10] =
      ({c3state with in_status := .TUNNEL, out_status := .TUNNEL}, none) := by
  have h := C3_connect_tunnel c3state (by decide) (by decide) (by decide)
    (by decide)
  exact ⟨⟨by decide, by decide, by decide, by decide, by decide, by decide⟩,
    h.1, (h.2.2 [22, 3, 1, 10] [22, 3, 1] (by decide) rfl).1 (by decide)⟩

end LibHtp

namespace LibHtp

set_option maxHeartbeats 1000000

/-- C8 counterexample: the request-side header parser consumes the four-byte
sequence LF CR CR LF as a single (deformed) line ending, both at the EOL
level and inside actual header parsing, so LF and CR LF are not the only
accepted line terminators. -/
theorem C8_counterexample :
    completeEolReq [10, 13, 13, 10, 10] =
      .ok [10] ([10, 13, 13, 10], DEFORMED_EOL) ∧
    headersReq false [107, 58, 118, 10, 13, 13, 10, 10] =
      .ok [] ([⟨⟨[107], 0⟩, ⟨[118], DEFORMED_EOL⟩⟩], true) := by
  refine ⟨by decide, by decide⟩

/-- C8 (amended): the request-side header parser accepts exactly LF and
CR LF (with no flag) and the deformed sequences LF CR CR LF and LF CR
(flagged DEFORMED_EOL) as complete line endings; no other byte sequence is
consumed as a line terminator. -/
theorem C8_request_eol (i r e : Bytes) (f : Nat)
    (h : completeEolReq i = .ok r (e, f)) :
    (e = [10] ∧ f = 0) ∨ (e = [13, 10] ∧ f = 0) ∨
    (e = [10, 13, 13, 10] ∧ f = DEFORMED_EOL) ∨
    (e = [10, 13] ∧ f = DEFORMED_EOL) := by
  by_cases h1 : prefixOfB [10, 13, 13, 10] i <;>
  by_cases h2 : prefixOfB [10] (i.drop 4) <;>
  by_cases h3 : prefixOfB [13, 10] (i.drop 4) <;>
  by_cases h4 : prefixOfB [10, 13] i <;>
  by_cases h5 : prefixOfB [13, 10] (i.drop 2) <;>
  by_cases h6 : prefixOfB [13, 10] i <;>
  by_cases h7 : prefixOfB [10] i <;>
  simp_all [completeEolReq, palt2, completeEolDeformedReq,
    completeEolRegularReq, PR.pmap, ppeek, ctag]

/-- Witness for C8 on the ordinary CR LF ending. -/
theorem C8_request_eol_witness :
    completeEolReq [13, 10] = .ok [] ([13, 10], 0) ∧
    ((([13, 10] : Bytes) = [10] ∧ (0 : Nat) = 0) ∨
     (([13, 10] : Bytes) = [13, 10] ∧ (0 : Nat) = 0) ∨
     (([13, 10] : Bytes) = [10, 13, 13, 10] ∧ (0 : Nat) = DEFORMED_EOL) ∨
     (([13, 10] : Bytes) = [10, 13] ∧ (0 : Nat) = DEFORMED_EOL)) :=
  ⟨by decide, C8_request_eol [13, 10] [] [13, 10] 0 (by decide)⟩

end LibHtp

namespace LibHtp

/-- Auxiliary: ptakeTill splits at the first matching byte. -/
theorem ptakeTill_split {p : Nat → Bool} (P q : Bytes) (m : Nat)
    (hP : ∀ b ∈ P, p b = false) (hm : p m = true) :
    ptakeTill p (P ++ m :: q) = .ok (m :: q) P := by
  have hidx : (P ++ m :: q).findIdx p = P.length := by
    rw [findIdx_append_of_all_false P _ hP]
    simp [List.findIdx_cons, hm]
  have hlen : P.length < (P ++ m :: q).length := by
    simp [List.length_append]
  simp only [ptakeTill, hidx, if_pos hlen]
  rw [List.drop_left, List.take_left]

/-- Auxiliary: pspace0 consumes nothing when the head is not SP or HT. -/
theorem pspace0_cons_false {a : Nat} {l : Bytes} (h : isSpHt a = false) :
    pspace0 (a :: l) = .ok (a :: l) [] := by
  simp [pspace0, ptakeWhile, ptakeTill, List.findIdx_cons, h]

/-- Auxiliary: lowercase letters are not SP or HT. -/
theorem isSpHt_false_of_lower {a : Nat} (h : 97 ≤ a ∧ a ≤ 122) :
    isSpHt a = false := by
  simp [isSpHt]
  omega

/-- Auxiliary: lowercase letters are not whitespace. -/
theorem isSpaceB_false_of_lower {a : Nat} (h : 97 ≤ a ∧ a ≤ 122) :
    isSpaceB a = false := by
  simp [isSpaceB]
  omega

end LibHtp

namespace LibHtp

/-- C1 counterexample: parsing the request header k:a NUL b CRLF CRLF
yields the value a NUL b with flags 0 - the value continues past the NUL,
but the NULL_TERMINATED flag is not set on the header, contrary to the
claim. -/
theorem C1_counterexample :
    headersReq false [107, 58, 97, 0, 98, 13, 10, 13, 10] =
      .ok [] ([⟨⟨[107], 0⟩, ⟨[97, 0, 98], 0⟩⟩], true) ∧
    flagIsSet 0 NULL_TERMINATED = false := by
  refine ⟨by decide, by decide⟩

/-- C1 (amended): a NUL byte inside a request header value does not
terminate the value - the value continues past the NUL - and no
NULL_TERMINATED flag is set: the header parses with flags 0. -/
theorem C1_nul_in_value (v1 v2 : Bytes)
    (h1 : ∀ b ∈ v1, 97 ≤ b ∧ b ≤ 122) (h2 : ∀ b ∈ v2, 97 ≤ b ∧ b ≤ 122) :
    headersReq false (107 :: 58 :: (v1 ++ 0 :: v2 ++ [13, 10, 13, 10])) =
      .ok [] ([⟨⟨[107], 0⟩, ⟨v1 ++ 0 :: v2, 0⟩⟩], true) := by
  set T : Bytes := v1 ++ 0 :: v2 ++ [13, 10, 13, 10] with hT
  have hThead : pspace0 T = .ok T [] := by
    rw [hT]
    cases v1 with
    | nil =>
        simp only [List.nil_append]
        exact pspace0_cons_false (by decide)
    | cons a t =>
        rw [List.cons_append]
        exact pspace0_cons_false (isSpHt_false_of_lower (h1 a (by simp)))
  have hsep : separatorReq (58 :: T) = .ok T 0 := by
    have hc : ctag [58] (58 :: T) = .ok T [58] := by
      simp [ctag, prefixOfB]
    simp only [separatorReq, separatorRegular, hc, hThead, PR.pmap]
  have hname : nameReq (107 :: 58 :: T) = .ok (58 :: T) ⟨[107], 0⟩ := by
    have hp0 : pspace0 (107 :: 58 :: T) = .ok (107 :: 58 :: T) [] :=
      pspace0_cons_false (by decide)
    have hp1 : pspace0 (58 :: T) = .ok (58 :: T) [] :=
      pspace0_cons_false (by decide)
    have htw : ptakeWhile isToken (107 :: 58 :: T) = .ok (58 :: T) [107] := by
      have hf : List.findIdx (fun b => !(isToken b)) (107 :: 58 :: T) = 1 := by
        simp [List.findIdx_cons, isToken]
      simp [ptakeWhile, ptakeTill, hf]
    have htc : tokenChars (107 :: 58 :: T) = .ok (58 :: T) ([], [107], []) := by
      simp only [tokenChars, hp0, htw, hp1]
    have htn : tokenNameReq (107 :: 58 :: T) = .ok (58 :: T) ([107], 0) := by
      simp only [tokenNameReq, htc, ppeek, hsep]
      try simp
    have hmk : HName.mk' [107] 0 = (⟨[107], 0⟩ : HName) := by decide
    simp only [nameReq, palt2, htn, PR.pmap, hmk]
  have hvb : valueBytesReq false T =
      .ok [13, 10] (v1 ++ 0 :: v2, (([13, 10], 0), none)) := by
    have hnol : ∀ b ∈ (v1 ++ 0 :: v2 ++ [13] : Bytes), (b == 10) = false := by
      intro b hb
      have hb' : b ∈ v1 ∨ b = 0 ∨ b ∈ v2 ∨ b = 13 := by
        simpa [List.mem_append, List.mem_cons, or_assoc] using hb
      have hne10 : b ≠ 10 := by
        rcases hb' with hb' | hb' | hb' | hb'
        · have := h1 b hb'; omega
        · omega
        · have := h2 b hb'; omega
        · omega
      simp [hne10]
    have hsplit : T = (v1 ++ 0 :: v2 ++ [13]) ++ 10 :: [13, 10] := by
      rw [hT]; simp
    have htt : ptakeTill (fun b => b == 10) T =
        .ok (10 :: [13, 10]) (v1 ++ 0 :: v2 ++ [13]) := by
      rw [hsplit]
      exact ptakeTill_split _ _ _ hnol (by decide)
    have hlast : (v1 ++ 0 :: v2 ++ [13] : Bytes).getLast? = some 13 := by
      have he : (v1 ++ 0 :: v2 ++ [13] : Bytes) = (v1 ++ 0 :: v2) ++ [13] := by
        simp
      rw [he, List.getLast?_concat]
    have hdl : (v1 ++ 0 :: v2 ++ [13] : Bytes).dropLast = v1 ++ 0 :: v2 := by
      have he : (v1 ++ 0 :: v2 ++ [13] : Bytes) = (v1 ++ 0 :: v2) ++ [13] := by
        simp
      rw [he, List.dropLast_concat]
    have hdrop : T.drop (v1 ++ 0 :: v2 : Bytes).length = [13, 10, 13, 10] := by
      have he : T = (v1 ++ 0 :: v2) ++ [13, 10, 13, 10] := by
        rw [hT]; try simp
      rw [he, List.drop_left]
    have hfot : fotReq false [13, 10, 13, 10] =
        .ok [13, 10] (([13, 10], 0), none) := by decide
    have hdrop2 : List.drop (List.length v1 + (List.length v2 + 1)) T =
        [13, 10, 13, 10] := by
      have he2 : List.length (v1 ++ 0 :: v2) =
          List.length v1 + (List.length v2 + 1) := by
        simp [List.length_append]
      rw [← he2]
      exact hdrop
    simp only [valueBytesReq, htt, hlast, hdl]
    simp [hdrop, hdrop2, hfot]
  have hne : (v1 ++ 0 :: v2 : Bytes).isEmpty = false := by
    cases v1 <;> simp
  have htrim : trimmedB (v1 ++ 0 :: v2) = v1 ++ 0 :: v2 := by
    apply trimmedB_eq_self
    intro b hb
    have hb' : b ∈ v1 ∨ b = 0 ∨ b ∈ v2 := by
      simpa [List.mem_append, List.mem_cons] using hb
    rcases hb' with hb' | hb' | hb'
    · exact isSpaceB_false_of_lower (h1 b hb')
    · subst hb'; decide
    · exact isSpaceB_false_of_lower (h2 b hb')
  have hval : valueReq false T = .ok [13, 10] ⟨v1 ++ 0 :: v2, 0⟩ := by
    simp only [valueReq, hvb, hne, HValue.mk', htrim]
    simp
  have hhdr : headerReq false (107 :: 58 :: T) =
      .ok [13, 10] ⟨⟨[107], 0⟩, ⟨v1 ++ 0 :: v2, 0⟩⟩ := by
    simp only [headerReq, palt2, headerWithColonReq, hname, hsep, hval]
    simp
  simp only [headersReq, hhdr]
  have hfl : flagIsSet 0 NULL_TERMINATED = false := by decide
  rw [hfl]
  simp only [Bool.false_eq_true, if_false]
  have hce : completeEolReq [13, 10] = .ok [] ([13, 10], 0) := by decide
  rw [hce]


/-- Witness for C1 at the concrete value a NUL b. -/
theorem C1_nul_in_value_witness :
    headersReq false (107 :: 58 :: ([97] ++ 0 :: [98] ++ [13, 10, 13, 10])) =
      .ok [] ([⟨⟨[107], 0⟩, ⟨[97] ++ 0 :: [98], 0⟩⟩], true) :=
  C1_nul_in_value [97] [98] (by decide) (by decide)

end LibHtp

namespace LibHtp

/-- Auxiliary: ptakeTill1 splits at the first matching byte when at least
one byte precedes it. -/
theorem ptakeTill1_split {p : Nat → Bool} (P q : Bytes) (m : Nat)
    (hP : ∀ b ∈ P, p b = false) (hm : p m = true) (hne : P ≠ []) :
    ptakeTill1 p (P ++ m :: q) = .ok (m :: q) P := by
  have hidx : (P ++ m :: q).findIdx p = P.length := by
    rw [findIdx_append_of_all_false P _ hP]
    simp [List.findIdx_cons, hm]
  have hlen : P.length < (P ++ m :: q).length := by
    simp [List.length_append]
  have hnz : P.length ≠ 0 := by
    intro h0
    exact hne (List.eq_nil_of_length_eq_zero h0)
  simp only [ptakeTill1, hidx, if_neg hnz, if_pos hlen]
  rw [List.drop_left, List.take_left]

/-- C7: a header line with no colon before its terminator parses as a
header with empty name and the whole (trimmed) line as value, with
MISSING_COLON set on both the name flags and the value flags. -/
theorem C7_missing_colon (wa wb r : Bytes) (hna : wa ≠ [])
    (h1 : ∀ b ∈ wa, 97 ≤ b ∧ b ≤ 122) (h2 : ∀ b ∈ wb, 97 ≤ b ∧ b ≤ 122) :
    headerReq false ((wa ++ 32 :: wb) ++ 13 :: 10 :: r) =
      .ok r ⟨⟨[], MISSING_COLON⟩,
             ⟨trimmedB (wa ++ 32 :: wb), MISSING_COLON⟩⟩ := by
  obtain ⟨a0, wa', rfl⟩ : ∃ a0 wa', wa = a0 :: wa' := by
    cases wa with
    | nil => exact absurd rfl hna
    | cons x xs => exact ⟨x, xs, rfl⟩
  have ha0 := h1 a0 (by simp)
  set W : Bytes := (a0 :: wa') ++ 32 :: wb with hW
  set I : Bytes := W ++ 13 :: 10 :: r with hI
  -- letters and the space are none of colon, CR, LF
  have hWmem : ∀ b ∈ W, 97 ≤ b ∧ b ≤ 122 ∨ b = 32 := by
    intro b hb
    rw [hW] at hb
    rcases (by simpa [List.mem_append, List.mem_cons] using hb :
        b = a0 ∨ b ∈ wa' ∨ b = 32 ∨ b ∈ wb) with hb' | hb' | hb' | hb'
    · subst hb'; exact Or.inl ha0
    · exact Or.inl (h1 b (by simp [hb']))
    · exact Or.inr hb'
    · exact Or.inl (h2 b hb')
  -- name parsing fails: token path
  have hsepfail : ∀ x : Bytes, (∀ c, x.head? = some c → c ≠ 58) →
      ppeek separatorReq x = .err := by
    intro x hx
    cases x with
    | nil =>
        simp [ppeek, separatorReq, separatorRegular, ctag, prefixOfB, PR.pmap]
    | cons c t =>
        have hc := hx c rfl
        have : prefixOfB [58] (c :: t) = false := by
          simp [prefixOfB]
          omega
        simp [ppeek, separatorReq, separatorRegular, ctag, this, PR.pmap]
  have hlead : pspace0 I = .ok I [] := by
    rw [hI, hW]
    rw [List.cons_append, List.cons_append]
    exact pspace0_cons_false (isSpHt_false_of_lower ha0)
  have htok : ptakeWhile isToken I = .ok (32 :: (wb ++ 13 :: 10 :: r)) (a0 :: wa') := by
    have hsh : I = (a0 :: wa') ++ 32 :: (wb ++ 13 :: 10 :: r) := by
      rw [hI, hW]; simp
    rw [hsh]
    unfold ptakeWhile
    apply ptakeTill_split
    · intro b hb
      have hb' := h1 b hb
      simp [isToken]
      omega
    · decide
  have htrail : pspace0 (32 :: (wb ++ 13 :: 10 :: r)) =
      .ok (wb ++ 13 :: 10 :: r) [32] := by
    unfold pspace0 ptakeWhile
    have hsh : (32 :: (wb ++ 13 :: 10 :: r) : Bytes) =
        [32] ++ (wb ++ 13 :: 10 :: r) := by simp
    rw [hsh]
    cases wb with
    | nil =>
        simp only [List.nil_append]
        have := ptakeTill_split (p := fun b => !(isSpHt b)) [32] (10 :: r) 13
          (by decide) (by decide)
        simpa using this
    | cons b t =>
        rw [List.cons_append]
        have := ptakeTill_split (p := fun b => !(isSpHt b)) [32]
          (t ++ 13 :: 10 :: r) b (by decide)
          (by simp [isSpHt_false_of_lower (h2 b (by simp))])
        simpa using this
  have hpeekfail : ppeek separatorReq (wb ++ 13 :: 10 :: r) = .err := by
    apply hsepfail
    intro c hc
    cases wb with
    | nil =>
        simp at hc
        omega
    | cons b t =>
        simp at hc
        have := h2 b (by simp)
        omega
  have htokname : tokenNameReq I = .err := by
    simp only [tokenNameReq, tokenChars, hlead, htok, htrail, hpeekfail]
  have hnontok : nonTokenNameReq I = .err := by
    have halt1 : ptakeTill (fun c => c == 58 || c == 10 || c == 13) I =
        .ok (13 :: 10 :: r) W := by
      have hsh : I = W ++ 13 :: (10 :: r) := by rw [hI]
      rw [hsh]
      apply ptakeTill_split
      · intro b hb
        rcases hWmem b hb with hb' | hb'
        · simp; omega
        · subst hb'; decide
      · decide
    have halt2 : ptakeTill (fun c => c == 58 || c == 10) I =
        .ok (10 :: r) (W ++ [13]) := by
      have hsh : I = (W ++ [13]) ++ 10 :: r := by rw [hI]; simp
      rw [hsh]
      apply ptakeTill_split
      · intro b hb
        rcases (by simpa using hb : b ∈ W ∨ b = 13) with hb' | hb'
        · rcases hWmem b hb' with hb'' | hb''
          · simp; omega
          · subst hb''; decide
        · subst hb'; decide
      · decide
    have hpf1 : ppeek separatorReq (13 :: 10 :: r) = .err := by
      apply hsepfail
      intro c hc
      simp at hc
      omega
    have hpf2 : ppeek separatorReq (10 :: r) = .err := by
      apply hsepfail
      intro c hc
      simp at hc
      omega
    simp only [nonTokenNameReq, palt2, halt1, halt2, hpf1, hpf2, PR.pmap]
  have hname : nameReq I = .err := by
    simp only [nameReq, palt2, htokname, hnontok, PR.pmap]
  -- sans-colon path
  have hpn : pnot (ctag [13, 10]) I = .ok I () := by
    have : prefixOfB [13, 10] I = false := by
      rw [hI, hW]
      rw [List.cons_append, List.cons_append]
      simp [prefixOfB]
      omega
    simp [pnot, ctag, this]
  have htt1 : ptakeTill1 (fun c => c == 58 || c == 10) I =
      .ok (10 :: r) (W ++ [13]) := by
    have hsh : I = (W ++ [13]) ++ 10 :: r := by rw [hI]; simp
    rw [hsh]
    apply ptakeTill1_split
    · intro b hb
      rcases (by simpa using hb : b ∈ W ∨ b = 13) with hb' | hb'
      · rcases hWmem b hb' with hb'' | hb''
        · simp; omega
        · subst hb''; decide
      · subst hb'; decide
    · decide
    · simp
  have hlast : (W ++ [13] : Bytes).getLast? = some 13 := List.getLast?_concat _
  have hdl : (W ++ [13] : Bytes).dropLast = W := List.dropLast_concat
  have hdropW : I.drop W.length = 13 :: 10 :: r := by
    rw [hI, List.drop_left]
  have hcne : completeNullOrEolReq (13 :: 10 :: r) = .ok r ([13, 10], 0) := by
    have hp1 : prefixOfB [0] (13 :: 10 :: r) = false := by simp [prefixOfB]
    have hp2 : prefixOfB [10, 13, 13, 10] (13 :: 10 :: r) = false := by
      simp [prefixOfB]
    have hp3 : prefixOfB [10, 13] (13 :: 10 :: r) = false := by
      simp [prefixOfB]
    have hp4 : prefixOfB [13, 10] (13 :: 10 :: r) = true := by
      simp [prefixOfB]
    simp [completeNullOrEolReq, palt2, nullP, ctag, completeEolReq,
      completeEolDeformedReq, completeEolRegularReq, PR.pmap, ppeek,
      hp1, hp2, hp3, hp4]
  have hsans : headerSansColonReq I =
      .ok r ⟨⟨[], MISSING_COLON⟩,
             ⟨trimmedB W, MISSING_COLON⟩⟩ := by
    simp only [headerSansColonReq, hpn, htt1, hlast, hdl, ite_true]
    simp only [HName.mk', HValue.mk', trimmedB]
    rw [hdropW, hcne]
    simp
  have hwc : headerWithColonReq false I = .err := by
    simp only [headerWithColonReq, hname]
  simp only [headerReq, palt2, hwc, hsans]


/-- Witness for C7 at the concrete line k v CRLF. -/
theorem C7_missing_colon_witness :
    headerReq false (([107] ++ 32 :: [118]) ++ 13 :: 10 :: []) =
      .ok [] ⟨⟨[], MISSING_COLON⟩,
              ⟨trimmedB ([107] ++ 32 :: [118]), MISSING_COLON⟩⟩ :=
  C7_missing_colon [107] [118] [] (by decide) (by decide) (by decide)

end LibHtp

namespace LibHtp

/-- Auxiliary: the legacy byte loop scans to the first LF, advancing the
read and stream offsets past it, and then runs the end-of-line branch. -/
theorem legacyLoop_run (j : Nat) : ∀ (fuel : Nat) (s : LState),
    (s.in_current_data.drop s.in_current_read_offset).findIdx
      (fun b => b == 10) = j →
    s.in_current_read_offset + j < s.in_current_data.length →
    j < fuel →
    legacyChunkedLengthLoop fuel s =
      legacyOnLf {s with
        in_current_read_offset := s.in_current_read_offset + (j + 1),
        in_stream_offset := s.in_stream_offset + ((j + 1 : Nat) : Int)} := by
  induction j with
  | zero =>
      intro fuel s hj hlt hf
      cases fuel with
      | zero => omega
      | succ f =>
          have hoff : s.in_current_read_offset < s.in_current_data.length := by
            omega
          have hdropeq : s.in_current_data.drop s.in_current_read_offset =
              s.in_current_data.get ⟨s.in_current_read_offset, hoff⟩ ::
                s.in_current_data.drop (s.in_current_read_offset + 1) := by
            exact List.drop_eq_getElem_cons hoff
          have hb : (s.in_current_data.get ⟨s.in_current_read_offset, hoff⟩
              == 10) = true := by
            rw [hdropeq, List.findIdx_cons] at hj
            by_cases hpb : (s.in_current_data.get
                ⟨s.in_current_read_offset, hoff⟩ == 10) = true
            · exact hpb
            · have hpb' : (s.in_current_data.get
                  ⟨s.in_current_read_offset, hoff⟩ == 10) = false := by
                simpa using hpb
              rw [hpb'] at hj
              simp at hj
          have hb' : s.in_current_data.get ⟨s.in_current_read_offset, hoff⟩
              = 10 := by simpa using hb
          unfold legacyChunkedLengthLoop
          rw [dif_pos hoff, if_pos hb']
          congr 1
  | succ k ih =>
      intro fuel s hj hlt hf
      cases fuel with
      | zero => omega
      | succ f =>
          have hoff : s.in_current_read_offset < s.in_current_data.length := by
            omega
          have hdropeq : s.in_current_data.drop s.in_current_read_offset =
              s.in_current_data.get ⟨s.in_current_read_offset, hoff⟩ ::
                s.in_current_data.drop (s.in_current_read_offset + 1) := by
            exact List.drop_eq_getElem_cons hoff
          have hb : (s.in_current_data.get ⟨s.in_current_read_offset, hoff⟩
              == 10) = false := by
            rw [hdropeq, List.findIdx_cons] at hj
            by_cases hpb : (s.in_current_data.get
                ⟨s.in_current_read_offset, hoff⟩ == 10) = true
            · rw [hpb] at hj
              simp at hj
            · simpa using hpb
          have hb' : ¬ s.in_current_data.get ⟨s.in_current_read_offset, hoff⟩
              = 10 := by simpa using hb
          have hjtail : (s.in_current_data.drop
              (s.in_current_read_offset + 1)).findIdx (fun b => b == 10) = k := by
            rw [hdropeq, List.findIdx_cons, hb] at hj
            simpa using hj
          unfold legacyChunkedLengthLoop
          rw [dif_pos hoff, if_neg hb']
          have := ih f {s with
            in_current_read_offset := s.in_current_read_offset + 1,
            in_stream_offset := s.in_stream_offset + 1}
            (by simpa using hjtail) (by simp; omega) (by omega)
          rw [this]
          congr 1
          simp
          constructor
          · omega
          · ring

end LibHtp

namespace LibHtp

/-- C9: on any complete chunk-length line, the legacy transliterated
handler and the rewritten handler store the same chunk length (the parsed
value or -1) and select the same outcome: BODY_CHUNKED_DATA for positive,
HEADERS with progress TRAILER for zero, fatal ERROR with the
invalid-chunk-length log for negative. -/
theorem C9_chunked_equivalence (l : LState) (s : RState)
    (hbuf : s.in_buf = l.in_buf)
    (hmsg : s.request_message_len = l.request_message_len)
    (hev : s.events = l.events)
    (hsi : s.in_state = l.in_state)
    (hpr : s.request_progress = l.request_progress)
    (hro : l.in_current_read_offset = 0)
    (hco : l.in_current_consume_offset = 0)
    (hlf : (10 : Nat) ∈ l.in_current_data)
    (hlim : s.in_buf = [] ∨
      bufferedBytes s +
        (l.in_current_data.findIdx (fun b => b == 10) + 1) ≤ s.field_limit) :
    ((reqBodyChunkedLength s l.in_current_data).1.in_chunked_length =
      (htpConnpReqBodyChunkedLength l).1.in_chunked_length) ∧
    ((reqBodyChunkedLength s l.in_current_data).1.in_state =
      (htpConnpReqBodyChunkedLength l).1.in_state) ∧
    ((reqBodyChunkedLength s l.in_current_data).1.request_progress =
      (htpConnpReqBodyChunkedLength l).1.request_progress) ∧
    ((reqBodyChunkedLength s l.in_current_data).1.request_message_len =
      (htpConnpReqBodyChunkedLength l).1.request_message_len) ∧
    ((reqBodyChunkedLength s l.in_current_data).1.events =
      (htpConnpReqBodyChunkedLength l).1.events) ∧
    ((reqBodyChunkedLength s l.in_current_data).2 =
      (htpConnpReqBodyChunkedLength l).2) := by
  set data := l.in_current_data with hdata
  set n := data.findIdx (fun b => b == 10) with hn
  have hnlt : n < data.length := by
    rw [hn]
    exact List.findIdx_lt_length.mpr ⟨10, hlf, by simp⟩
  set line := data.take (n + 1) with hline
  have hlinelen : line.length = n + 1 := by
    rw [hline]
    simp [List.length_take]
    omega
  have htlf : takeTillLf data = some (data.drop (n + 1), line) := by
    show (if data.findIdx (fun b => b == 10) < data.length then
        some (data.drop (data.findIdx (fun b => b == 10) + 1),
              data.take (data.findIdx (fun b => b == 10) + 1))
      else none) = some (data.drop (n + 1), line)
    rw [← hn, if_pos hnlt, ← hline]
  -- the new-side buffer check passes
  have hck : (if ({s with in_pos := s.in_pos + line.length} : RState).in_buf ≠ []
      then checkBufferLimit {s with in_pos := s.in_pos + line.length} line.length
      else ({s with in_pos := s.in_pos + line.length}, none)) =
      ({s with in_pos := s.in_pos + line.length}, none) := by
    rcases hlim with hb | hl
    · rw [if_neg]
      simp [hb]
    · by_cases hb : s.in_buf = []
      · rw [if_neg]
        simp [hb]
      · rw [if_pos (by simpa using hb)]
        unfold checkBufferLimit
        by_cases hl0 : line.length = 0
        · rw [if_pos hl0]
        · rw [if_neg hl0, if_neg]
          have e1 : ({s with in_pos := s.in_pos + line.length} : RState).in_buf
              = s.in_buf := rfl
          have e2 : ({s with in_pos := s.in_pos + line.length} : RState).in_header
              = s.in_header := rfl
          have e3 : ({s with in_pos := s.in_pos + line.length} : RState).field_limit
              = s.field_limit := rfl
          rw [e1, e2, e3]
          unfold bufferedBytes at hl
          rw [hlinelen]
          omega
  have hnw : reqBodyChunkedLength s data =
      (let stored := storedChunkedLength (s.in_buf ++ line)
       let s4 : RState := {s with in_pos := s.in_pos + line.length,
                                  in_buf := [],
                                  request_message_len := s.request_message_len +
                                    ((s.in_buf ++ line).length : Int),
                                  in_chunked_length := stored}
       if stored > 0 then ({s4 with in_state := .BODY_CHUNKED_DATA}, none)
       else if stored = 0 then
         ({s4 with in_state := .HEADERS, request_progress := .TRAILER}, none)
       else ({s4 with events := s4.events ++ [.log .INVALID_REQUEST_CHUNK_LEN]},
         some .ERROR)) := by
    unfold reqBodyChunkedLength
    rw [htlf]
    simp only [hck]
  -- the legacy side runs to the first LF
  have hlg : htpConnpReqBodyChunkedLength l =
      legacyOnLf {l with in_current_read_offset := 0 + (n + 1),
                         in_stream_offset := l.in_stream_offset +
                           ((n + 1 : Nat) : Int)} := by
    unfold htpConnpReqBodyChunkedLength
    have hnlt2 : n < l.in_current_data.length := by
      rw [← hdata]; exact hnlt
    have := legacyLoop_run n (l.in_current_data.length + 1) l
      (by rw [hro]; simp [hn, hdata]) (by rw [hro]; simpa using hnlt2)
      (by omega)
    rw [this, hro]
  have hcons : legacyConsolidated
      {l with in_current_read_offset := 0 + (n + 1),
              in_stream_offset := l.in_stream_offset + ((n + 1 : Nat) : Int)} =
      l.in_buf ++ line := by
    show l.in_buf ++ ((l.in_current_data.drop l.in_current_consume_offset).take
        (0 + (n + 1) - l.in_current_consume_offset)) = l.in_buf ++ line
    rw [hco]
    conv_rhs => rw [hline, hdata]
    simp
  rw [hnw, hlg]
  unfold legacyOnLf
  rw [hcons]
  simp only [hbuf]
  set stored := storedChunkedLength (l.in_buf ++ line) with hst
  by_cases hpos : stored > 0
  · rw [if_pos hpos, if_pos hpos]
    simp [hmsg, hev, hsi, hpr]
  · rw [if_neg hpos, if_neg hpos]
    by_cases hz : stored = 0
    · rw [if_pos hz, if_pos hz]
      simp [hmsg, hev, hsi, hpr]
    · rw [if_neg hz, if_neg hz]
      simp [hmsg, hev, hsi, hpr]


/-- Witness for C9 on the concrete line 5 CR LF followed by body bytes. -/
theorem C9_chunked_equivalence_witness :
    (reqBodyChunkedLength rsBase [53, 13, 10, 120, 120]).1.in_chunked_length =
      (htpConnpReqBodyChunkedLength
        ⟨[53, 13, 10, 120, 120], 0, 0, 0, [], 0, .BODY_CHUNKED_LENGTH, .BODY,
         0, []⟩).1.in_chunked_length :=
  (C9_chunked_equivalence
    ⟨[53, 13, 10, 120, 120], 0, 0, 0, [], 0, .BODY_CHUNKED_LENGTH, .BODY,
     0, []⟩
    rsBase (by decide) (by decide) (by decide) (by decide) (by decide)
    (by decide) (by decide) (by decide) (Or.inl (by decide))).1

end LibHtp
